import Mathlib

/-!
Shallow embedding of the Thrift Binary Protocol decoder in
test-infrastructure/proxy-server/thrift_decoder.py, together with proofs
about the claims of its specification.

Conventions of the embedding:
* bytes are natural numbers below 256; a buffer is a concrete list of bytes;
* the decoder state mirrors the Python object: the underlying BytesIO
  cursor (streamPos, which advances even on partial reads) and the
  self.pos counter (which advances only on successful reads);
* Python exceptions become values of type PyErr carrying the exception
  class name and the str(e) message, paired with the state at raise time;
* Python dict objects become insertion-ordered association lists with
  Python key equality (update keeps the original key and position);
* machine integers are Int with explicit wrap-arounds where the source
  relies on struct.unpack widths;
* the recursive decode functions take an explicit gas parameter; gas
  exhaustion is a distinguished outcome (DErr.gasOut) that is never
  caught, so it is distinct from every Python exception.
-/

namespace TDec

/-- Decimal digit to character, as Python prints it. -/
def digitChar : Nat → Char
  | 0 => '0'
  | 1 => '1'
  | 2 => '2'
  | 3 => '3'
  | 4 => '4'
  | 5 => '5'
  | 6 => '6'
  | 7 => '7'
  | 8 => '8'
  | _ => '9'

/-- Little-endian decimal digits of a natural number, with explicit fuel
(the number itself suffices as fuel). -/
def natDigitsAux : Nat → Nat → List Nat
  | 0, _ => []
  | _ + 1, 0 => []
  | f + 1, n + 1 => ((n + 1) % 10) :: natDigitsAux f ((n + 1) / 10)

/-- Decimal rendering of a natural number, as Python str does. -/
def natRepr (n : Nat) : String :=
  if n = 0 then "0" else String.mk (((natDigitsAux n n).map digitChar).reverse)

/-- Decimal rendering of an integer, as Python str does. -/
def intRepr (i : Int) : String :=
  if i < 0 then "-" ++ natRepr i.natAbs else natRepr i.toNat

/-- Hexadecimal digit to character, lowercase as Python hex produces. -/
def hexDigitChar (d : Nat) : Char :=
  if d < 10 then digitChar d
  else if d = 10 then 'a'
  else if d = 11 then 'b'
  else if d = 12 then 'c'
  else if d = 13 then 'd'
  else if d = 14 then 'e'
  else 'f'

/-- Little-endian base-16 digits with fuel. -/
def natHexDigitsAux : Nat → Nat → List Nat
  | 0, _ => []
  | _ + 1, 0 => []
  | f + 1, n + 1 => ((n + 1) % 16) :: natHexDigitsAux f ((n + 1) / 16)

/-- Hex rendering without prefix, as Python uses inside hex(). -/
def natHexRepr (n : Nat) : String :=
  if n = 0 then "0" else String.mk (((natHexDigitsAux n n).map hexDigitChar).reverse)

/-- Python hex() of a nonnegative integer. -/
def pyHex (n : Nat) : String := "0x" ++ natHexRepr n

/-- Two lowercase hex digits of one byte, as bytes.hex() renders each byte. -/
def byteHex (b : Nat) : String := String.mk [hexDigitChar (b / 16 % 16), hexDigitChar (b % 16)]

/-- Python bytes.hex() of a byte list. -/
def bytesHex (l : List Nat) : String := String.join (l.map byteHex)

/-- Decoded Python values produced by the decoder: bool, int, float
(kept as the raw 8-byte big-endian IEEE-754 pattern), str, dict
(insertion-ordered pair list) and list. -/
inductive PyVal where
  | pbool (b : Bool)
  | pint (n : Int)
  | pfloat (bits : Nat)
  | pstr (s : String)
  | pdict (entries : List (PyVal × PyVal))
  | plist (xs : List PyVal)

/-- Python number semantics of hashable scalar values: bool and int embed
into the numeric tower, floats are decoded from their IEEE-754 bit
pattern.  NaN compares unequal to everything (each decoded float is a
fresh object, so the dict identity shortcut never applies); a finite
value is num / 2 ^ den2. -/
inductive DNum where
  | nan
  | posInf
  | negInf
  | fin (num : Int) (den2 : Nat)
deriving DecidableEq

/-- Value of an IEEE-754 binary64 bit pattern (8 bytes, big-endian,
as struct.unpack with format !d reads it). -/
def floatValOfBits (bits : Nat) : DNum :=
  let sign : Nat := bits / 2 ^ 63 % 2
  let expo : Nat := bits / 2 ^ 52 % 2 ^ 11
  let mant : Nat := bits % 2 ^ 52
  let sgn : Int := if sign = 0 then 1 else -1
  if expo = 2047 then
    (if mant = 0 then (if sign = 0 then .posInf else .negInf) else .nan)
  else if expo = 0 then .fin (sgn * (mant : Int)) 1074
  else if expo < 1075 then .fin (sgn * ((2 ^ 52 + mant : Nat) : Int)) (1075 - expo)
  else .fin (sgn * ((2 ^ 52 + mant : Nat) : Int) * ((2 ^ (expo - 1075) : Nat) : Int)) 0

/-- Equality on DNum as Python == compares numbers. -/
def dnumEq : DNum → DNum → Bool
  | .posInf, .posInf => true
  | .negInf, .negInf => true
  | .fin n1 d1, .fin n2 d2 => n1 * 2 ^ d2 = n2 * 2 ^ d1
  | _, _ => false

/-- Numeric view of a decoded value, when it is a Python number. -/
def pyNumOf : PyVal → Option DNum
  | .pbool b => some (.fin (if b then 1 else 0) 0)
  | .pint n => some (.fin n 0)
  | .pfloat bits => some (floatValOfBits bits)
  | _ => none

/-- Python == on the hashable values the decoder can produce as dict keys
(numbers compare across bool/int/float; strings compare as strings;
NaN keys never compare equal because each is a fresh object). -/
def pyKeyEq (a b : PyVal) : Bool :=
  match pyNumOf a, pyNumOf b with
  | some x, some y => dnumEq x y
  | none, none =>
    match a, b with
    | .pstr s, .pstr t => s = t
    | _, _ => false
  | _, _ => false

/-- Python hashability of a decoded value: dict and list are unhashable. -/
def isHashable : PyVal → Bool
  | .pdict _ => false
  | .plist _ => false
  | _ => true

/-- Python type name of an unhashable decoded value, for the TypeError text. -/
def unhashableName : PyVal → String
  | .pdict _ => "dict"
  | .plist _ => "list"
  | _ => "?"

/-- Python dict assignment d[k] = v on an insertion-ordered dict: if an
equal key exists, the original key keeps its position and the value is
replaced; otherwise the pair is appended. -/
def pyDictInsert (d : List (PyVal × PyVal)) (k v : PyVal) : List (PyVal × PyVal) :=
  match d with
  | [] => [(k, v)]
  | (k0, v0) :: rest =>
    if pyKeyEq k0 k then (k0, v) :: rest else (k0, v0) :: pyDictInsert rest k v

/-- Keys of a dict, in insertion order. -/
def keysOf (d : List (PyVal × PyVal)) : List PyVal := d.map (fun p => p.1)

/-- Whether a dict already holds an equal key. -/
def containsKeyB (d : List (PyVal × PyVal)) (k : PyVal) : Bool :=
  d.any (fun p => pyKeyEq p.1 k)

/-- Lookup of a string key in a string-keyed dict. -/
def lookupStr (d : List (PyVal × PyVal)) (k : String) : Option PyVal :=
  match d with
  | [] => none
  | (k0, v0) :: rest => if pyKeyEq k0 (.pstr k) then some v0 else lookupStr rest k

/-- First-encounter key order: the key sequence ks folded into an
initially empty dict, keeping only the first occurrence of each key. -/
def addKeys (acc : List PyVal) (ks : List PyVal) : List PyVal :=
  match ks with
  | [] => acc
  | k :: rest => addKeys (if acc.any (fun k0 => pyKeyEq k0 k) then acc else acc ++ [k]) rest

/-- Decoder state: the buffer, the BytesIO read cursor (streamPos, which
advances by the number of bytes actually returned, even on a short read),
and the self.pos counter (pos, which advances only when a read succeeds). -/
structure DecState where
  data : List Nat
  streamPos : Nat
  pos : Nat
deriving DecidableEq, Repr

/-- A raised Python exception: class name and str(e) message. -/
structure PyErr where
  ty : String
  msg : String
deriving DecidableEq, Repr

/-- Result of a primitive read: either a value with the new state, or an
exception together with the state at raise time (the stream cursor has
already swallowed any partially available bytes, as BytesIO does). -/
abbrev RdRes (α : Type) := Except (PyErr × DecState) (α × DecState)

/-- self.stream.read(n): returns up to n bytes and advances the stream
cursor by the number returned. -/
def readRaw (st : DecState) (n : Nat) : List Nat × DecState :=
  let chunk := (st.data.drop st.streamPos).take n
  (chunk, { st with streamPos := st.streamPos + chunk.length })

/-- The EOFError raised by the fixed-width readers. -/
def eofErr (pos : Nat) : PyErr :=
  ⟨"EOFError", "Unexpected end of stream at position " ++ natRepr pos⟩

/-- Big-endian value of a byte list. -/
def beNat (l : List Nat) : Nat := l.foldl (fun acc b => acc * 256 + b) 0

/-- Two's-complement reading of a w-bit pattern. -/
def toSigned (w : Nat) (n : Nat) : Int :=
  if n < 2 ^ (w - 1) then (n : Int) else (n : Int) - 2 ^ w

/-- read_byte: one byte as a signed 8-bit integer. -/
def readByte (st : DecState) : RdRes Int :=
  let (chunk, st1) := readRaw st 1
  if chunk.length < 1 then .error (eofErr st.pos, st1)
  else .ok (toSigned 8 (beNat chunk), { st1 with pos := st1.pos + 1 })

/-- read_i16: big-endian signed 16-bit integer. -/
def readI16 (st : DecState) : RdRes Int :=
  let (chunk, st1) := readRaw st 2
  if chunk.length < 2 then .error (eofErr st.pos, st1)
  else .ok (toSigned 16 (beNat chunk), { st1 with pos := st1.pos + 2 })

/-- read_i32: big-endian signed 32-bit integer. -/
def readI32 (st : DecState) : RdRes Int :=
  let (chunk, st1) := readRaw st 4
  if chunk.length < 4 then .error (eofErr st.pos, st1)
  else .ok (toSigned 32 (beNat chunk), { st1 with pos := st1.pos + 4 })

/-- read_i64: big-endian signed 64-bit integer. -/
def readI64 (st : DecState) : RdRes Int :=
  let (chunk, st1) := readRaw st 8
  if chunk.length < 8 then .error (eofErr st.pos, st1)
  else .ok (toSigned 64 (beNat chunk), { st1 with pos := st1.pos + 8 })

/-- read_double: 8 bytes, kept as the raw big-endian bit pattern. -/
def readDouble (st : DecState) : RdRes Nat :=
  let (chunk, st1) := readRaw st 8
  if chunk.length < 8 then .error (eofErr st.pos, st1)
  else .ok (beNat chunk, { st1 with pos := st1.pos + 8 })

/-- Is a byte a UTF-8 continuation byte. -/
def isCont (b : Nat) : Bool := 128 ≤ b ∧ b < 192

/-- Strict UTF-8 decoding (RFC 3629, as Python bytes.decode does:
rejecting overlong forms, surrogates and code points above 0x10FFFF).
Structured with explicit fuel equal to the input length; every step
consumes at least one byte, so the fuel never runs out in actual use. -/
def utf8DecodeAux : Nat → List Nat → Option (List Char)
  | _, [] => some []
  | 0, _ :: _ => none
  | f + 1, b :: rest =>
    if b < 128 then (utf8DecodeAux f rest).map (fun cs => Char.ofNat b :: cs)
    else if 194 ≤ b ∧ b ≤ 223 then
      match rest with
      | c1 :: rest2 =>
        if isCont c1 then
          (utf8DecodeAux f rest2).map (fun cs => Char.ofNat ((b - 192) * 64 + (c1 - 128)) :: cs)
        else none
      | [] => none
    else if 224 ≤ b ∧ b ≤ 239 then
      match rest with
      | c1 :: c2 :: rest2 =>
        let lo1 : Nat := if b = 224 then 160 else 128
        let hi1 : Nat := if b = 237 then 159 else 191
        if lo1 ≤ c1 ∧ c1 ≤ hi1 ∧ isCont c2 then
          (utf8DecodeAux f rest2).map
            (fun cs => Char.ofNat ((b - 224) * 4096 + (c1 - 128) * 64 + (c2 - 128)) :: cs)
        else none
      | _ => none
    else if 240 ≤ b ∧ b ≤ 244 then
      match rest with
      | c1 :: c2 :: c3 :: rest2 =>
        let lo1 : Nat := if b = 240 then 144 else 128
        let hi1 : Nat := if b = 244 then 143 else 191
        if lo1 ≤ c1 ∧ c1 ≤ hi1 ∧ isCont c2 ∧ isCont c3 then
          (utf8DecodeAux f rest2).map
            (fun cs =>
              Char.ofNat ((b - 240) * 262144 + (c1 - 128) * 4096 + (c2 - 128) * 64 + (c3 - 128)) :: cs)
        else none
      | _ => none
    else none

/-- Python bytes.decode on utf-8, as an Option. -/
def utf8Decode (l : List Nat) : Option String :=
  (utf8DecodeAux l.length l).map String.mk

/-- read_string: a 32-bit length prefix with sanity checks, then exactly
that many bytes; invalid UTF-8 falls back to a bounded hex preview. -/
def readString (st : DecState) : RdRes String :=
  match readI32 st with
  | .error e => .error e
  | .ok (len, st1) =>
    if len < 0 then .error (⟨"ValueError", "Invalid string length: " ++ intRepr len⟩, st1)
    else if 10 * 1024 * 1024 < len then
      .error (⟨"ValueError", "String length too large: " ++ intRepr len⟩, st1)
    else
      let n := len.toNat
      let (chunk, st2) := readRaw st1 n
      if chunk.length < n then
        .error (⟨"EOFError",
          "Unexpected end of stream while reading string at position " ++ natRepr st1.pos⟩, st2)
      else
        let st3 := { st2 with pos := st2.pos + n }
        match utf8Decode chunk with
        | some s => .ok (s, st3)
        | none =>
          let preview := bytesHex (chunk.take 50)
          let preview2 := if 50 < chunk.length then preview ++ "..." else preview
          .ok ("<binary:" ++ preview2 ++ ">", st3)

/-- Python bitwise AND of a (possibly negative) 32-bit integer with a
nonnegative mask below 2 ^ 32, via the two's-complement pattern. -/
def maskAnd (size : Int) (mask : Nat) : Nat := (size % 2 ^ 32).toNat &&& mask

/-- read_message_begin: the message envelope in strict or legacy framing.
The message of the UnicodeDecodeError a non-UTF-8 legacy method name
raises comes from the Python runtime and is abstracted here. -/
def readMessageBegin (st : DecState) : RdRes (String × Int × Int) :=
  match readI32 st with
  | .error e => .error e
  | .ok (size, st1) =>
    if size < 0 then
      let version := maskAnd size 0xFFFF0000
      if version ≠ 0x80010000 then
        .error (⟨"ValueError", "Unsupported Thrift version: " ++ pyHex version⟩, st1)
      else
        let messageType : Int := maskAnd size 0x000000FF
        match readString st1 with
        | .error e => .error e
        | .ok (methodName, st2) =>
          match readI32 st2 with
          | .error e => .error e
          | .ok (seqId, st3) => .ok ((methodName, messageType, seqId), st3)
    else
      let n := size.toNat
      let (chunk, st2) := readRaw st1 n
      if chunk.length < n then
        .error (⟨"EOFError", "Unexpected end of stream while reading method name"⟩, st2)
      else
        let st3 := { st2 with pos := st2.pos + n }
        match utf8Decode chunk with
        | none => .error (⟨"UnicodeDecodeError", "invalid utf-8 in method name"⟩, st3)
        | some methodName =>
          match readByte st3 with
          | .error e => .error e
          | .ok (messageType, st4) =>
            match readI32 st4 with
            | .error e => .error e
            | .ok (seqId, st5) => .ok ((methodName, messageType, seqId), st5)

/-- TYPE_NAMES.get(field_type, f-string fallback). -/
def typeNameOf (ft : Int) : String :=
  if ft = 0 then "STOP"
  else if ft = 1 then "VOID"
  else if ft = 2 then "BOOL"
  else if ft = 3 then "BYTE"
  else if ft = 4 then "DOUBLE"
  else if ft = 6 then "I16"
  else if ft = 8 then "I32"
  else if ft = 10 then "I64"
  else if ft = 11 then "STRING"
  else if ft = 12 then "STRUCT"
  else if ft = 13 then "MAP"
  else if ft = 14 then "SET"
  else if ft = 15 then "LIST"
  else if ft = 16 then "UTF8"
  else if ft = 17 then "UTF16"
  else "type_" ++ intRepr ft

/-- The field key used in read_struct: the resolved name from the field
name map if present, otherwise the synthetic field_id name. -/
def resolveKeyF (resolve : Int → Option String) (fid : Int) : String :=
  match resolve fid with
  | some nm => nm
  | none => "field_" ++ intRepr fid

/-- A successfully decoded field entry of read_struct. -/
def fieldEntryOk (tn : String) (v : PyVal) (fid : Int) : PyVal :=
  .pdict [(.pstr "type", .pstr tn), (.pstr "value", v), (.pstr "field_id", .pint fid)]

/-- A field entry recording a decode error in read_struct. -/
def fieldEntryErr (tn : String) (msg : String) (fid : Int) : PyVal :=
  .pdict [(.pstr "type", .pstr tn), (.pstr "error", .pstr msg), (.pstr "field_id", .pint fid)]

/-- Errors of the recursive interpreter: a raised Python exception with
the state at raise time, or gas exhaustion (an artifact of the embedding
that is never caught, so it cannot be confused with an exception). -/
inductive DErr where
  | gasOut
  | py (e : PyErr) (st : DecState)
deriving DecidableEq

/-- Tasks of the recursive interpreter, one per recursive source function
or loop: read_field_value, read_struct and its while loop, _read_map and
its pair loop, _read_set, _read_list and their shared element loop,
skip_field, _skip_struct and the two skip loops. -/
inductive Task where
  | fieldValue (resolve : Int → Option String) (fieldType : Int) (maxDepth : Int)
  | structVal (resolve : Int → Option String) (maxDepth : Int)
  | structLoop (resolve : Int → Option String) (maxDepth : Int) (fields : List (PyVal × PyVal))
  | mapVal (resolve : Int → Option String) (maxDepth : Int)
  | mapPairs (resolve : Int → Option String) (ktype vtype maxDepth : Int) (count : Nat)
      (acc : List (PyVal × PyVal))
  | setVal (resolve : Int → Option String) (maxDepth : Int)
  | listVal (resolve : Int → Option String) (maxDepth : Int)
  | seqElems (resolve : Int → Option String) (elemType maxDepth : Int) (count : Nat)
      (acc : List PyVal)
  | skip (fieldType : Int) (maxDepth : Int)
  | skipStructLoop (maxDepth : Int)
  | skipMapSeq (ktype vtype maxDepth : Int) (count : Nat)
  | skipSeq (elemType maxDepth : Int) (count : Nat)

/-- Lift a primitive read failure into the interpreter error type. -/
def liftErr {α : Type} : Except (PyErr × DecState) (α × DecState) → Except DErr (α × DecState)
  | .error (e, s) => .error (.py e s)
  | .ok r => .ok r

/-- The skip tasks return no value; a fixed dummy stands for Python None. -/
def skipDone : PyVal := .pstr ""

/-- The recursive decoder core.  Each case is the direct translation of
the corresponding function or loop body of ThriftDecoder; all recursive
calls spend one unit of gas, so the recursion is structural. -/
def run : Nat → Task → DecState → Except DErr (PyVal × DecState)
  | 0, _, _ => .error .gasOut
  | g + 1, t, st =>
    match t with
    | .fieldValue resolve ft md =>
      if md ≤ 0 then .ok (.pstr "<max_depth_exceeded>", st)
      else if ft = 2 then
        match readByte st with
        | .error (e, s) => .error (.py e s)
        | .ok (b, st1) => .ok (.pbool (b ≠ 0), st1)
      else if ft = 3 then
        match readByte st with
        | .error (e, s) => .error (.py e s)
        | .ok (b, st1) => .ok (.pint b, st1)
      else if ft = 6 then
        match readI16 st with
        | .error (e, s) => .error (.py e s)
        | .ok (n, st1) => .ok (.pint n, st1)
      else if ft = 8 then
        match readI32 st with
        | .error (e, s) => .error (.py e s)
        | .ok (n, st1) => .ok (.pint n, st1)
      else if ft = 10 then
        match readI64 st with
        | .error (e, s) => .error (.py e s)
        | .ok (n, st1) => .ok (.pint n, st1)
      else if ft = 4 then
        match readDouble st with
        | .error (e, s) => .error (.py e s)
        | .ok (bits, st1) => .ok (.pfloat bits, st1)
      else if ft = 11 then
        match readString st with
        | .error (e, s) => .error (.py e s)
        | .ok (s, st1) => .ok (.pstr s, st1)
      else if ft = 12 then run g (.structVal resolve (md - 1)) st
      else if ft = 13 then run g (.mapVal resolve (md - 1)) st
      else if ft = 14 then run g (.setVal resolve (md - 1)) st
      else if ft = 15 then run g (.listVal resolve (md - 1)) st
      else .ok (.pstr ("<unknown_type:" ++ intRepr ft), st)
    | .structVal resolve md =>
      if md ≤ 0 then .ok (.pdict [(.pstr "error", .pstr "max_depth_exceeded")], st)
      else run g (.structLoop resolve md []) st
    | .structLoop resolve md fields =>
      match readByte st with
      | .error (_, s) => .ok (.pdict fields, s)
      | .ok (ft, st1) =>
        if ft = 0 then .ok (.pdict fields, st1)
        else
          match readI16 st1 with
          | .error (_, s) => .ok (.pdict fields, s)
          | .ok (fid, st2) =>
            let tn := typeNameOf ft
            let key : PyVal := .pstr (resolveKeyF resolve fid)
            match run g (.fieldValue resolve ft md) st2 with
            | .ok (v, st3) =>
              run g (.structLoop resolve md (pyDictInsert fields key (fieldEntryOk tn v fid))) st3
            | .error .gasOut => .error .gasOut
            | .error (.py e stE) =>
              let fields2 := pyDictInsert fields key (fieldEntryErr tn e.msg fid)
              match run g (.skip ft md) stE with
              | .ok (_, st4) => run g (.structLoop resolve md fields2) st4
              | .error .gasOut => .error .gasOut
              | .error (.py _ s2) => .ok (.pdict fields2, s2)
    | .mapVal resolve md =>
      match readByte st with
      | .error (e, s) => .error (.py e s)
      | .ok (kt, st1) =>
        match readByte st1 with
        | .error (e, s) => .error (.py e s)
        | .ok (vt, st2) =>
          match readI32 st2 with
          | .error (e, s) => .error (.py e s)
          | .ok (sz, st3) =>
            if 10000 < sz then
              .ok (.pdict [(.pstr "<large_map>", .pstr (intRepr sz ++ " entries"))], st3)
            else run g (.mapPairs resolve kt vt md sz.toNat []) st3
    | .mapPairs resolve kt vt md count acc =>
      match count with
      | 0 => .ok (.pdict acc, st)
      | n + 1 =>
        match run g (.fieldValue resolve kt md) st with
        | .error e => .error e
        | .ok (k, st1) =>
          match run g (.fieldValue resolve vt md) st1 with
          | .error e => .error e
          | .ok (v, st2) =>
            if isHashable k then run g (.mapPairs resolve kt vt md n (pyDictInsert acc k v)) st2
            else .error (.py ⟨"TypeError", "unhashable type: " ++ unhashableName k⟩ st2)
    | .setVal resolve md =>
      match readByte st with
      | .error (e, s) => .error (.py e s)
      | .ok (et, st1) =>
        match readI32 st1 with
        | .error (e, s) => .error (.py e s)
        | .ok (sz, st2) =>
          if 10000 < sz then
            .ok (.plist [.pstr ("<large_set: " ++ intRepr sz ++ " entries>")], st2)
          else run g (.seqElems resolve et md sz.toNat []) st2
    | .listVal resolve md =>
      match readByte st with
      | .error (e, s) => .error (.py e s)
      | .ok (et, st1) =>
        match readI32 st1 with
        | .error (e, s) => .error (.py e s)
        | .ok (sz, st2) =>
          if 10000 < sz then
            .ok (.plist [.pstr ("<large_list: " ++ intRepr sz ++ " entries>")], st2)
          else run g (.seqElems resolve et md sz.toNat []) st2
    | .seqElems resolve et md count acc =>
      match count with
      | 0 => .ok (.plist acc, st)
      | n + 1 =>
        match run g (.fieldValue resolve et md) st with
        | .error e => .error e
        | .ok (v, st1) => run g (.seqElems resolve et md n (acc ++ [v])) st1
    | .skip ft md =>
      if md ≤ 0 then
        .error (.py ⟨"ValueError", "Maximum recursion depth exceeded while skipping field"⟩ st)
      else if ft = 2 ∨ ft = 3 then
        match readByte st with
        | .error (e, s) => .error (.py e s)
        | .ok (_, st1) => .ok (skipDone, st1)
      else if ft = 6 then
        match readI16 st with
        | .error (e, s) => .error (.py e s)
        | .ok (_, st1) => .ok (skipDone, st1)
      else if ft = 8 then
        match readI32 st with
        | .error (e, s) => .error (.py e s)
        | .ok (_, st1) => .ok (skipDone, st1)
      else if ft = 10 then
        match readI64 st with
        | .error (e, s) => .error (.py e s)
        | .ok (_, st1) => .ok (skipDone, st1)
      else if ft = 4 then
        match readDouble st with
        | .error (e, s) => .error (.py e s)
        | .ok (_, st1) => .ok (skipDone, st1)
      else if ft = 11 then
        match readString st with
        | .error (e, s) => .error (.py e s)
        | .ok (_, st1) => .ok (skipDone, st1)
      else if ft = 12 then run g (.skipStructLoop (md - 1)) st
      else if ft = 13 then
        match readByte st with
        | .error (e, s) => .error (.py e s)
        | .ok (kt, st1) =>
          match readByte st1 with
          | .error (e, s) => .error (.py e s)
          | .ok (vt, st2) =>
            match readI32 st2 with
            | .error (e, s) => .error (.py e s)
            | .ok (sz, st3) => run g (.skipMapSeq kt vt md sz.toNat) st3
      else if ft = 14 ∨ ft = 15 then
        match readByte st with
        | .error (e, s) => .error (.py e s)
        | .ok (et, st1) =>
          match readI32 st1 with
          | .error (e, s) => .error (.py e s)
          | .ok (sz, st2) => run g (.skipSeq et md sz.toNat) st2
      else .ok (skipDone, st)
    | .skipStructLoop md =>
      match readByte st with
      | .error (e, s) => .error (.py e s)
      | .ok (ft, st1) =>
        if ft = 0 then .ok (skipDone, st1)
        else
          match readI16 st1 with
          | .error (e, s) => .error (.py e s)
          | .ok (_, st2) =>
            match run g (.skip ft md) st2 with
            | .error e => .error e
            | .ok (_, st3) => run g (.skipStructLoop md) st3
    | .skipMapSeq kt vt md count =>
      match count with
      | 0 => .ok (skipDone, st)
      | n + 1 =>
        match run g (.skip kt (md - 1)) st with
        | .error e => .error e
        | .ok (_, st1) =>
          match run g (.skip vt (md - 1)) st1 with
          | .error e => .error e
          | .ok (_, st2) => run g (.skipMapSeq kt vt md n) st2
    | .skipSeq et md count =>
      match count with
      | 0 => .ok (skipDone, st)
      | n + 1 =>
        match run g (.skip et (md - 1)) st with
        | .error e => .error e
        | .ok (_, st1) => run g (.skipSeq et md n) st1

/-- read_field_value. -/
def readFieldValue (gas : Nat) (resolve : Int → Option String) (ft md : Int) (st : DecState) :
    Except DErr (PyVal × DecState) :=
  run gas (.fieldValue resolve ft md) st

/-- read_struct. -/
def readStruct (gas : Nat) (resolve : Int → Option String) (md : Int) (st : DecState) :
    Except DErr (PyVal × DecState) :=
  run gas (.structVal resolve md) st

/-- _read_map. -/
def readMapVal (gas : Nat) (resolve : Int → Option String) (md : Int) (st : DecState) :
    Except DErr (PyVal × DecState) :=
  run gas (.mapVal resolve md) st

/-- _read_list. -/
def readListVal (gas : Nat) (resolve : Int → Option String) (md : Int) (st : DecState) :
    Except DErr (PyVal × DecState) :=
  run gas (.listVal resolve md) st

/-- _read_set. -/
def readSetVal (gas : Nat) (resolve : Int → Option String) (md : Int) (st : DecState) :
    Except DErr (PyVal × DecState) :=
  run gas (.setVal resolve md) st

/-- skip_field. -/
def skipField (gas : Nat) (ft md : Int) (st : DecState) : Except DErr (PyVal × DecState) :=
  run gas (.skip ft md) st

/-- KNOWN_METHODS. -/
def knownMethods : List String :=
  ["OpenSession", "CloseSession", "ExecuteStatement", "GetOperationStatus", "FetchResults",
   "CloseOperation", "CancelOperation", "GetResultSetMetadata", "GetSchemas", "GetTables",
   "GetColumns", "GetCatalogs", "GetTableTypes", "GetTypeInfo"]

/-- METHOD_TO_REQUEST_TYPE. -/
def methodToRequestType : List (String × String) :=
  [("OpenSession", "TOpenSessionReq"), ("CloseSession", "TCloseSessionReq"),
   ("ExecuteStatement", "TExecuteStatementReq"), ("GetOperationStatus", "TGetOperationStatusReq"),
   ("FetchResults", "TFetchResultsReq"), ("CloseOperation", "TCloseOperationReq"),
   ("CancelOperation", "TCancelOperationReq"),
   ("GetResultSetMetadata", "TGetResultSetMetadataReq"), ("GetSchemas", "TGetSchemasReq"),
   ("GetTables", "TGetTablesReq"), ("GetColumns", "TGetColumnsReq"),
   ("GetCatalogs", "TGetCatalogsReq"), ("GetTableTypes", "TGetTableTypesReq"),
   ("GetTypeInfo", "TGetTypeInfoReq")]

/-- METHOD_TO_RESPONSE_TYPE. -/
def methodToResponseType : List (String × String) :=
  [("OpenSession", "TOpenSessionResp"), ("CloseSession", "TCloseSessionResp"),
   ("ExecuteStatement", "TExecuteStatementResp"), ("GetOperationStatus", "TGetOperationStatusResp"),
   ("FetchResults", "TFetchResultsResp"), ("CloseOperation", "TCloseOperationResp"),
   ("CancelOperation", "TCancelOperationResp"),
   ("GetResultSetMetadata", "TGetResultSetMetadataResp"), ("GetSchemas", "TGetSchemasResp"),
   ("GetTables", "TGetTablesResp"), ("GetColumns", "TGetColumnsResp"),
   ("GetCatalogs", "TGetCatalogsResp"), ("GetTableTypes", "TGetTableTypesResp"),
   ("GetTypeInfo", "TGetTypeInfoResp")]

/-- Python dict.get on a string-keyed table. -/
def lookupStrMap (m : List (String × String)) (k : String) : Option String :=
  match m with
  | [] => none
  | (k0, v0) :: rest => if k0 = k then some v0 else lookupStrMap rest k

/-- Python dict.get on an int-keyed map. -/
def lookupIntMap (m : List (Int × String)) (k : Int) : Option String :=
  match m with
  | [] => none
  | (k0, v0) :: rest => if k0 = k then some v0 else lookupIntMap rest k

/-- Python dict assignment field_map[id] = name on an int-keyed map. -/
def insertIntMap (m : List (Int × String)) (k : Int) (v : String) : List (Int × String) :=
  match m with
  | [] => [(k, v)]
  | (k0, v0) :: rest =>
    if k0 = k then (k0, v) :: rest else (k0, v0) :: insertIntMap rest k v

/-- A schema registry, as consumed (not owned) by the decoder.
Modelled from the spec: the external generated Thrift code
(thrift_spec of databricks-sql-python) is not part of this repository;
per the spec, lookupFieldDescriptors maps a struct type name to an
ordered list of (fieldId, wireType, fieldName) descriptors, absent when
the struct type is unknown. -/
abbrev SchemaRegistry := String → Option (List (Int × Int × String))

/-- _build_field_name_map: choose the request/response struct-type table
by message type, look the struct type up in the registry, and project the
descriptor list to a field-id-to-name dict. -/
def buildFieldNameMap (available : Bool) (registry : SchemaRegistry)
    (methodName : String) (messageType : Int) : List (Int × String) :=
  if ¬ available then []
  else
    match
      (if messageType = 1 then lookupStrMap methodToRequestType methodName
       else if messageType = 2 then lookupStrMap methodToResponseType methodName
       else none) with
    | none => []
    | some structTypeName =>
      match registry structTypeName with
      | none => []
      | some fieldSpec =>
        fieldSpec.foldl (fun m fs => insertIntMap m fs.1 fs.2.2) []

/-- MESSAGE_TYPE_NAMES.get with the f-string fallback. -/
def messageTypeName (mt : Int) : String :=
  if mt = 1 then "CALL"
  else if mt = 2 then "REPLY"
  else if mt = 3 then "EXCEPTION"
  else if mt = 4 then "ONEWAY"
  else "UNKNOWN(" ++ intRepr mt ++ ")"

/-- The error dictionary decode_message returns when the envelope (or any
other stage) raises: str(e), the exception class name, and the byte
counters. -/
def errorDict (e : PyErr) (pos total : Nat) : PyVal :=
  .pdict [(.pstr "error", .pstr e.msg), (.pstr "error_type", .pstr e.ty),
    (.pstr "bytes_decoded", .pint pos), (.pstr "total_bytes", .pint total)]

/-- decode_message: envelope, field name map, struct body, result
dictionary; every Python exception is caught and reported as an error
dictionary (only gas exhaustion propagates). -/
def decodeMessage (available : Bool) (registry : SchemaRegistry) (gas : Nat)
    (data : List Nat) : Except DErr PyVal :=
  let st0 : DecState := ⟨data, 0, 0⟩
  match readMessageBegin st0 with
  | .error (e, stE) => .ok (errorDict e stE.pos data.length)
  | .ok ((methodName, messageType, seqId), st1) =>
    let nameMap := buildFieldNameMap available registry methodName messageType
    let resolve : Int → Option String := fun fid => lookupIntMap nameMap fid
    match readStruct gas resolve 32 st1 with
    | .error .gasOut => .error .gasOut
    | .error (.py e stE) => .ok (errorDict e stE.pos data.length)
    | .ok (structFields, st2) =>
      let base : List (PyVal × PyVal) :=
        [(.pstr "method", .pstr methodName),
         (.pstr "message_type", .pstr (messageTypeName messageType)),
         (.pstr "sequence_id", .pint seqId),
         (.pstr "fields", structFields),
         (.pstr "bytes_decoded", .pint st2.pos),
         (.pstr "total_bytes", .pint data.length)]
      let base2 :=
        if knownMethods.contains methodName then
          base ++ [(.pstr "protocol", .pstr "HiveServer2/Databricks")]
        else base
      let base3 :=
        if available ∧ nameMap ≠ [] then
          base2 ++ [(.pstr "field_names_resolved", .pbool true),
            (.pstr "resolved_fields_count", .pint nameMap.length)] ++
            (if messageType = 1 then [(.pstr "struct_type", .pstr "Request")]
             else if messageType = 2 then [(.pstr "struct_type", .pstr "Response")]
             else [])
        else base2 ++ [(.pstr "field_names_resolved", .pbool false)]
      .ok (.pdict base3)

/-- decode_thrift_message: None on an empty or short buffer, otherwise
the dictionary decode_message produces (decode_message catches every
exception itself, so the outer try of the source is dead code). -/
def decodeThriftMessage (available : Bool) (registry : SchemaRegistry) (gas : Nat)
    (data : List Nat) : Except DErr (Option PyVal) :=
  if data.length < 4 then .ok none
  else
    match decodeMessage available registry gas data with
    | .error e => .error e
    | .ok v => .ok (some v)

/-- Code-point lexicographic strict order on character lists, as Python
compares str values. -/
def charListLt : List Char → List Char → Bool
  | [], [] => false
  | [], _ :: _ => true
  | _ :: _, [] => false
  | c :: cs, d :: ds =>
    if c.toNat < d.toNat then true
    else if d.toNat < c.toNat then false
    else charListLt cs ds

/-- Reflexive code-point lexicographic order on character lists. -/
def charListLe : List Char → List Char → Bool
  | [], _ => true
  | _ :: _, [] => false
  | c :: cs, d :: ds =>
    if c.toNat < d.toNat then true
    else if d.toNat < c.toNat then false
    else charListLe cs ds

/-- Python < on strings. -/
def pyStrLt (a b : String) : Bool := charListLt a.data b.data

/-- Python <= on strings. -/
def pyStrLe (a b : String) : Bool := charListLe a.data b.data

/-- The string key of a field entry (read_struct keys are always str). -/
def entryKeyStr : PyVal × PyVal → String
  | (.pstr s, _) => s
  | _ => ""

/-- One insertion step of sorting the field items by key, as
sorted(fields.items()) orders them (keys are distinct in a dict, so the
tuple comparison never goes past the key). -/
def insertSortedEntry (p : PyVal × PyVal) (l : List (PyVal × PyVal)) : List (PyVal × PyVal) :=
  match l with
  | [] => [p]
  | q :: rest =>
    if pyStrLt (entryKeyStr q) (entryKeyStr p) then q :: insertSortedEntry p rest
    else p :: q :: rest

/-- sorted(fields.items()): the field entries in ascending key order. -/
def sortFieldEntries (l : List (PyVal × PyVal)) : List (PyVal × PyVal) :=
  l.foldr insertSortedEntry []

/-- The order in which format_thrift_message reports the decoded fields:
it iterates sorted(fields.items()), so the report order is the key-sorted
order, not the mapping order. -/
def formatFieldsOrder (fields : List (PyVal × PyVal)) : List String :=
  (sortFieldEntries fields).map entryKeyStr

/-- The entries are in ascending key order. -/
def SortedByKey (l : List (PyVal × PyVal)) : Prop :=
  List.Pairwise (fun p q => pyStrLe (entryKeyStr p) (entryKeyStr q) = true) l

/-- Instrumented mirror of the read_struct while loop that returns the
decoded (key, entry) pairs as a plain list in wire encounter order,
instead of folding them into a dict.  Used to state the ordering claims:
the loop itself is proved equal to the dict fold over this sequence. -/
def structFieldSeq : Nat → (Int → Option String) → Int → DecState →
    Except DErr (List (PyVal × PyVal) × DecState)
  | 0, _, _, _ => .error .gasOut
  | g + 1, resolve, md, st =>
    match readByte st with
    | .error (_, s) => .ok ([], s)
    | .ok (ft, st1) =>
      if ft = 0 then .ok ([], st1)
      else
        match readI16 st1 with
        | .error (_, s) => .ok ([], s)
        | .ok (fid, st2) =>
          let tn := typeNameOf ft
          let key : PyVal := .pstr (resolveKeyF resolve fid)
          match run g (.fieldValue resolve ft md) st2 with
          | .ok (v, st3) =>
            match structFieldSeq g resolve md st3 with
            | .ok (ps, s) => .ok ((key, fieldEntryOk tn v fid) :: ps, s)
            | .error e => .error e
          | .error .gasOut => .error .gasOut
          | .error (.py e stE) =>
            match run g (.skip ft md) stE with
            | .ok (_, st4) =>
              match structFieldSeq g resolve md st4 with
              | .ok (ps, s) => .ok ((key, fieldEntryErr tn e.msg fid) :: ps, s)
              | .error e2 => .error e2
            | .error .gasOut => .error .gasOut
            | .error (.py _ s2) => .ok ([(key, fieldEntryErr tn e.msg fid)], s2)

/-- Instrumented mirror of the _read_list and _read_set element loop that
returns the decoded elements as the list of values in decode order. -/
def seqElemsTrace : Nat → (Int → Option String) → Int → Int → Nat → DecState →
    Except DErr (List PyVal × DecState)
  | 0, _, _, _, _, _ => .error .gasOut
  | g + 1, resolve, et, md, count, st =>
    match count with
    | 0 => .ok ([], st)
    | n + 1 =>
      match run g (.fieldValue resolve et md) st with
      | .error e => .error e
      | .ok (v, st1) =>
        match seqElemsTrace g resolve et md n st1 with
        | .ok (es, s) => .ok (v :: es, s)
        | .error e => .error e

/-- The resolver of a decoder with no schema registry attached
(field_name_map is the empty dict). -/
def noResolve : Int → Option String := fun _ => none

/-- A key-resolution function is injective: distinct field ids always get
distinct field keys (true of the no-registry resolver, and of any
registry whose names are distinct and not of the synthetic form). -/
def KeyInj (m : Int → Option String) : Prop :=
  ∀ i j : Int, resolveKeyF m i = resolveKeyF m j → i = j

/-- Relation between the value decoded with no registry and the value
decoded with registry resolver m from the same bytes: equal except that
struct field keys are resolved through m instead of the synthetic names.
The dict cases distinguish map dicts (keys equal, values related) from
struct dicts (entries in wire order, each keyed by the resolver applied
to its own field id). -/
inductive RVal (m : Int → Option String) : PyVal → PyVal → Prop where
  | base (v : PyVal) : RVal m v v
  | rlistNil : RVal m (.plist []) (.plist [])
  | rlistCons {x y : PyVal} {xs ys : List PyVal} :
      RVal m x y → RVal m (.plist xs) (.plist ys) → RVal m (.plist (x :: xs)) (.plist (y :: ys))
  | rmapNil : RVal m (.pdict []) (.pdict [])
  | rmapCons {k v1 v2 : PyVal} {d1 d2 : List (PyVal × PyVal)} :
      RVal m v1 v2 → RVal m (.pdict d1) (.pdict d2) →
      RVal m (.pdict ((k, v1) :: d1)) (.pdict ((k, v2) :: d2))
  | rstructNil : RVal m (.pdict []) (.pdict [])
  | rstructConsVal {tn : String} {fid : Int} {v1 v2 : PyVal} {d1 d2 : List (PyVal × PyVal)} :
      RVal m v1 v2 → RVal m (.pdict d1) (.pdict d2) →
      RVal m (.pdict ((.pstr (resolveKeyF noResolve fid), fieldEntryOk tn v1 fid) :: d1))
        (.pdict ((.pstr (resolveKeyF m fid), fieldEntryOk tn v2 fid) :: d2))
  | rstructConsErr {tn msg : String} {fid : Int} {d1 d2 : List (PyVal × PyVal)} :
      RVal m (.pdict d1) (.pdict d2) →
      RVal m (.pdict ((.pstr (resolveKeyF noResolve fid), fieldEntryErr tn msg fid) :: d1))
        (.pdict ((.pstr (resolveKeyF m fid), fieldEntryErr tn msg fid) :: d2))

/-- The same relation restricted to struct field dicts (the shape the
read_struct accumulator always has). -/
inductive RFields (m : Int → Option String) :
    List (PyVal × PyVal) → List (PyVal × PyVal) → Prop where
  | nil : RFields m [] []
  | consVal {tn : String} {fid : Int} {v1 v2 : PyVal} {d1 d2 : List (PyVal × PyVal)} :
      RVal m v1 v2 → RFields m d1 d2 →
      RFields m ((.pstr (resolveKeyF noResolve fid), fieldEntryOk tn v1 fid) :: d1)
        ((.pstr (resolveKeyF m fid), fieldEntryOk tn v2 fid) :: d2)
  | consErr {tn msg : String} {fid : Int} {d1 d2 : List (PyVal × PyVal)} :
      RFields m d1 d2 →
      RFields m ((.pstr (resolveKeyF noResolve fid), fieldEntryErr tn msg fid) :: d1)
        ((.pstr (resolveKeyF m fid), fieldEntryErr tn msg fid) :: d2)

/-- The same relation for map dicts: keys equal pointwise, values related. -/
inductive RPairs (m : Int → Option String) :
    List (PyVal × PyVal) → List (PyVal × PyVal) → Prop where
  | nil : RPairs m [] []
  | cons {k v1 v2 : PyVal} {d1 d2 : List (PyVal × PyVal)} :
      RVal m v1 v2 → RPairs m d1 d2 → RPairs m ((k, v1) :: d1) ((k, v2) :: d2)

/-- The same relation for element lists. -/
inductive RList (m : Int → Option String) : List PyVal → List PyVal → Prop where
  | nil : RList m [] []
  | cons {x y : PyVal} {xs ys : List PyVal} :
      RVal m x y → RList m xs ys → RList m (x :: xs) (y :: ys)

/-- Relation between the outcomes of the two runs: identical errors, or
identical states with related values. -/
def RRes (m : Int → Option String) :
    Except DErr (PyVal × DecState) → Except DErr (PyVal × DecState) → Prop
  | .error e1, .error e2 => e1 = e2
  | .ok (v1, s1), .ok (v2, s2) => RVal m v1 v2 ∧ s1 = s2
  | _, _ => False

/-- Tasks of the two runs that correspond: same task up to the resolver,
with related accumulators. -/
inductive RTask (m : Int → Option String) : Task → Task → Prop where
  | fieldValue (ft md : Int) : RTask m (.fieldValue noResolve ft md) (.fieldValue m ft md)
  | structVal (md : Int) : RTask m (.structVal noResolve md) (.structVal m md)
  | structLoop {md : Int} {f1 f2 : List (PyVal × PyVal)} :
      RFields m f1 f2 → RTask m (.structLoop noResolve md f1) (.structLoop m md f2)
  | mapVal (md : Int) : RTask m (.mapVal noResolve md) (.mapVal m md)
  | mapPairs {kt vt md : Int} {n : Nat} {a1 a2 : List (PyVal × PyVal)} :
      RPairs m a1 a2 →
      RTask m (.mapPairs noResolve kt vt md n a1) (.mapPairs m kt vt md n a2)
  | setVal (md : Int) : RTask m (.setVal noResolve md) (.setVal m md)
  | listVal (md : Int) : RTask m (.listVal noResolve md) (.listVal m md)
  | seqElems {et md : Int} {n : Nat} {a1 a2 : List PyVal} :
      RList m a1 a2 → RTask m (.seqElems noResolve et md n a1) (.seqElems m et md n a2)

/-- The field entries of a successful struct decode result, for stating
concrete facts about decoded messages. -/
def okFields : Except DErr (PyVal × DecState) → List (PyVal × PyVal)
  | .ok (.pdict d, _) => d
  | _ => []

/-- The fields dict of a successful decode_message result. -/
def msgFields : Except DErr PyVal → List (PyVal × PyVal)
  | .ok (.pdict d) =>
    match lookupStr d "fields" with
    | some (.pdict f) => f
    | _ => []
  | _ => []

/-- The string keys of a field dict, in dict order. -/
def keyStrsOf (d : List (PyVal × PyVal)) : List String := d.map entryKeyStr

/-- The inner struct keys of the decoded value stored under key k of a
field dict: used to compare decoded values across runs. -/
def entryValueKeys (d : List (PyVal × PyVal)) (k : String) : List String :=
  match lookupStr d k with
  | some (.pdict e) =>
    match lookupStr e "value" with
    | some (.pdict inner) => keyStrsOf inner
    | _ => []
  | _ => []

/-- Well-formedness of a decoded map dict: all keys are hashable and no
two keys compare equal under Python ==, so every wire key occurs at most
once (duplicates have been collapsed by the dict insert). -/
def GoodMapDict (d : List (PyVal × PyVal)) : Prop :=
  List.Pairwise (fun p q => pyKeyEq p.1 q.1 = false) d ∧ ∀ p ∈ d, isHashable p.1 = true

/-- Value of a little-endian base-10 digit list (left inverse of
natDigitsAux, used to prove the decimal rendering injective). -/
def ofDigits10 (l : List Nat) : Nat := l.foldr (fun d acc => d + 10 * acc) 0

/-- Body of a struct whose single field (id 1) is a struct, nested n
further levels down to an innermost BOOL field (id 50), each level closed
by its STOP byte.  deepBody n encodes n+1 nesting levels. -/
def deepBody : Nat → List Nat
  | 0 => [2, 0, 50, 1, 0]
  | n + 1 => [12, 0, 1] ++ deepBody n ++ [0]

/-- A struct whose first field (id 1) is a sub-struct nested 40 levels
deep, followed by a sibling BOOL field (id 99, value true) and STOP. -/
def bufDeepSib : List Nat := [12, 0, 1] ++ deepBody 39 ++ [2, 0, 99, 1] ++ [0]

/-- The same struct with the over-deep sub-struct absent: just the
sibling BOOL field (id 99, value true) and STOP. -/
def bufSibOnly : List Nat := [2, 0, 99, 1, 0]

/-- A map with two pairs carrying the duplicate I32 key 1 (values 10 and
20), preceded by its key-type, value-type and count header. -/
def bufMapDupKey : List Nat :=
  [8, 8, 0, 0, 0, 2, 0, 0, 0, 1, 0, 0, 0, 10, 0, 0, 0, 1, 0, 0, 0, 20]

/-- A map whose single key is a STRUCT (an empty struct) and whose value
is the one-byte string a. -/
def bufMapStructKey : List Nat := [12, 11, 0, 0, 0, 1, 0, 0, 0, 0, 1, 97]

/-- A struct with two BOOL fields in wire order id 2 then id 1. -/
def bufTwoFields : List Nat := [2, 0, 2, 1, 2, 0, 1, 0, 0]

/-- ASCII bytes of the method name ExecuteStatement. -/
def execNameBytes : List Nat :=
  [69, 120, 101, 99, 117, 116, 101, 83, 116, 97, 116, 101, 109, 101, 110, 116]

/-- Struct body carrying field ids 1 (STRUCT with an inner BOOL field of
id 2), 2 (STRING ab), 3 (empty MAP), 7 (BOOL), 8 (I64). -/
def execBody : List Nat :=
  [12, 0, 1, 2, 0, 2, 1, 0,
   11, 0, 2, 0, 0, 0, 2, 97, 98,
   13, 0, 3, 11, 11, 0, 0, 0, 0,
   2, 0, 7, 1,
   10, 0, 8, 0, 0, 0, 0, 0, 0, 0, 30,
   0]

/-- A strict-framing Call message for ExecuteStatement with sequence id 0
and the execBody struct body. -/
def execMsg : List Nat :=
  [0x80, 0x01, 0x00, 0x01, 0, 0, 0, 16] ++ execNameBytes ++ [0, 0, 0, 0] ++ execBody

/-- The schema registry of the claim scenario: ExecuteStatement requests
resolve through TExecuteStatementReq to the five documented field names.
Modelled from the spec: the registry contents come from generated code
outside this repository. -/
def exampleRegistry : SchemaRegistry := fun s =>
  if s = "TExecuteStatementReq" then
    some [(1, 12, "sessionHandle"), (2, 11, "statement"), (3, 13, "confOverlay"),
      (7, 2, "runAsync"), (8, 10, "queryTimeout")]
  else none

/-- The field-id-to-name dict the example registry produces. -/
def m5map : List (Int × String) :=
  [(1, "sessionHandle"), (2, "statement"), (3, "confOverlay"),
   (7, "runAsync"), (8, "queryTimeout")]

/-- The resolver of the example registry. -/
def m5resolve : Int → Option String := fun i => lookupIntMap m5map i

/-! ## Helper lemmas: the decimal rendering is injective -/

theorem ofDigits10_cons (d : Nat) (l : List Nat) :
    ofDigits10 (d :: l) = d + 10 * ofDigits10 l := rfl

theorem ofDigits10_natDigitsAux : ∀ f n, n ≤ f → ofDigits10 (natDigitsAux f n) = n := by
  intro f
  induction f with
  | zero => intro n hn; interval_cases n; rfl
  | succ f ih =>
    intro n hn
    match n with
    | 0 => rfl
    | n + 1 =>
      have hdiv : (n + 1) / 10 ≤ f := by
        have h1 : (n + 1) / 10 < n + 1 := Nat.div_lt_self (Nat.succ_pos n) (by norm_num)
        omega
      have h2 := ih ((n + 1) / 10) hdiv
      simp only [natDigitsAux, ofDigits10_cons, h2]
      omega

theorem natDigitsAux_lt : ∀ f n d, d ∈ natDigitsAux f n → d < 10 := by
  intro f
  induction f with
  | zero => intro n d hd; simp [natDigitsAux] at hd
  | succ f ih =>
    intro n d hd
    match n with
    | 0 => simp [natDigitsAux] at hd
    | n + 1 =>
      simp only [natDigitsAux, List.mem_cons] at hd
      rcases hd with h | h
      · omega
      · exact ih _ _ h

theorem digitChar_toNat (d : Nat) (hd : d < 10) : (digitChar d).toNat = 48 + d := by
  interval_cases d <;> rfl

theorem map_digitChar_inj :
    ∀ l1 l2 : List Nat, (∀ d ∈ l1, d < 10) → (∀ d ∈ l2, d < 10) →
      l1.map digitChar = l2.map digitChar → l1 = l2 := by
  intro l1
  induction l1 with
  | nil => intro l2 _ _ h; cases l2 <;> simp_all
  | cons a l ih =>
    intro l2 h1 h2 h
    cases l2 with
    | nil => simp_all
    | cons b l2t =>
      simp only [List.map_cons, List.cons.injEq] at h
      have ha : a < 10 := h1 a (by simp)
      have hb : b < 10 := h2 b (by simp)
      have hab : a = b := by
        have := congrArg Char.toNat h.1
        rw [digitChar_toNat a ha, digitChar_toNat b hb] at this
        omega
      have ht := ih l2t (fun d hd => h1 d (by simp [hd])) (fun d hd => h2 d (by simp [hd])) h.2
      rw [hab, ht]

theorem string_data_inj {s t : String} (h : s.data = t.data) : s = t := by
  cases s; cases t; simp_all

theorem natRepr_inj : ∀ m n : Nat, natRepr m = natRepr n → m = n := by
  intro m n h
  by_cases hm : m = 0 <;> by_cases hn : n = 0
  · omega
  · exfalso
    rw [natRepr, if_pos hm, natRepr, if_neg hn] at h
    have hd := congrArg String.data h
    have hd2 : ((natDigitsAux n n).map digitChar).reverse = ['0'] := hd.symm
    have hd3 : (natDigitsAux n n).map digitChar = ['0'] := by
      have := congrArg List.reverse hd2
      simpa using this
    have hdig : natDigitsAux n n = [0] := by
      have h0 : ([0] : List Nat).map digitChar = ['0'] := rfl
      exact map_digitChar_inj _ [0] (fun d hd => natDigitsAux_lt n n d hd)
        (by intro d hd; simp at hd; omega) (hd3.trans h0.symm)
    have hrt := ofDigits10_natDigitsAux n n le_rfl
    rw [hdig] at hrt
    simp [ofDigits10] at hrt
    omega
  · exfalso
    rw [natRepr, if_neg hm, natRepr, if_pos hn] at h
    have hd := congrArg String.data h
    have hd2 : ((natDigitsAux m m).map digitChar).reverse = ['0'] := hd
    have hd3 : (natDigitsAux m m).map digitChar = ['0'] := by
      have := congrArg List.reverse hd2
      simpa using this
    have hdig : natDigitsAux m m = [0] := by
      have h0 : ([0] : List Nat).map digitChar = ['0'] := rfl
      exact map_digitChar_inj _ [0] (fun d hd => natDigitsAux_lt m m d hd)
        (by intro d hd; simp at hd; omega) (hd3.trans h0.symm)
    have hrt := ofDigits10_natDigitsAux m m le_rfl
    rw [hdig] at hrt
    simp [ofDigits10] at hrt
    omega
  · rw [natRepr, if_neg hm, natRepr, if_neg hn] at h
    have hd := congrArg String.data h
    have hd2 := List.reverse_injective hd
    have hd3 := map_digitChar_inj _ _ (fun d hd => natDigitsAux_lt m m d hd)
      (fun d hd => natDigitsAux_lt n n d hd) hd2
    have h1 := ofDigits10_natDigitsAux m m le_rfl
    have h2 := ofDigits10_natDigitsAux n n le_rfl
    rw [← h1, ← h2, hd3]

theorem natRepr_mem_digit : ∀ (n : Nat), ∀ c ∈ (natRepr n).data, 48 ≤ c.toNat ∧ c.toNat ≤ 57 := by
  intro n c hc
  by_cases hn : n = 0
  · rw [natRepr, if_pos hn] at hc
    have : c = '0' := by simpa using hc
    rw [this]; constructor <;> decide
  · rw [natRepr, if_neg hn] at hc
    simp only [String.mk] at hc
    have hc2 : c ∈ (natDigitsAux n n).map digitChar := by
      have := List.mem_reverse.mp hc
      exact this
    obtain ⟨d, hd, hcd⟩ := List.mem_map.mp hc2
    have hlt := natDigitsAux_lt n n d hd
    rw [← hcd, digitChar_toNat d hlt]
    omega

theorem natRepr_ne_nil (n : Nat) : (natRepr n).data ≠ [] := by
  by_cases hn : n = 0
  · rw [natRepr, if_pos hn]; decide
  · rw [natRepr, if_neg hn]
    match n, hn with
    | n + 1, _ =>
      simp [natDigitsAux]

theorem natRepr_head_digit (n : Nat) :
    ∃ c, (natRepr n).data.head? = some c ∧ 48 ≤ c.toNat ∧ c.toNat ≤ 57 := by
  cases hd : (natRepr n).data with
  | nil => exact absurd hd (natRepr_ne_nil n)
  | cons c rest =>
    refine ⟨c, rfl, natRepr_mem_digit n c ?_⟩
    rw [hd]; simp

theorem intRepr_inj : ∀ a b : Int, intRepr a = intRepr b → a = b := by
  intro a b h
  by_cases ha : a < 0 <;> by_cases hb : b < 0
  · rw [intRepr, if_pos ha, intRepr, if_pos hb] at h
    have hd := congrArg String.data h
    rw [String.data_append, String.data_append] at hd
    have hd2 := List.append_cancel_left hd
    have := natRepr_inj _ _ (string_data_inj hd2)
    omega
  · exfalso
    rw [intRepr, if_pos ha, intRepr, if_neg hb] at h
    have hd := congrArg String.data h
    rw [String.data_append] at hd
    obtain ⟨c, hc, hc48, _⟩ := natRepr_head_digit b.toNat
    have hminus : ("-" : String).data = ['-'] := by decide
    rw [hminus] at hd
    have hh : (['-'] ++ (natRepr a.natAbs).data).head? = ((natRepr b.toNat).data).head? :=
      congrArg List.head? hd
    rw [List.cons_append, List.head?_cons, hc] at hh
    have : '-' = c := by simpa using hh
    rw [← this] at hc48
    exact absurd hc48 (by decide)
  · exfalso
    rw [intRepr, if_neg ha, intRepr, if_pos hb] at h
    have hd := congrArg String.data h
    rw [String.data_append] at hd
    obtain ⟨c, hc, hc48, _⟩ := natRepr_head_digit a.toNat
    have hminus : ("-" : String).data = ['-'] := by decide
    rw [hminus] at hd
    have hh : ((natRepr a.toNat).data).head? = (['-'] ++ (natRepr b.natAbs).data).head? :=
      congrArg List.head? hd
    rw [List.cons_append, List.head?_cons, hc] at hh
    have : c = '-' := by simpa using hh
    rw [this] at hc48
    exact absurd hc48 (by decide)
  · rw [intRepr, if_neg ha, intRepr, if_neg hb] at h
    have := natRepr_inj _ _ h
    omega

theorem synthKey_inj : ∀ i j : Int, ("field_" ++ intRepr i : String) = "field_" ++ intRepr j → i = j := by
  intro i j h
  have hd := congrArg String.data h
  rw [String.data_append, String.data_append] at hd
  exact intRepr_inj _ _ (string_data_inj (List.append_cancel_left hd))

theorem resolveKeyF_noResolve (i : Int) : resolveKeyF noResolve i = "field_" ++ intRepr i := rfl

theorem keyInj_noResolve : KeyInj noResolve := by
  intro i j h
  rw [resolveKeyF_noResolve, resolveKeyF_noResolve] at h
  exact synthKey_inj i j h

theorem synthKey_head (i : Int) : ("field_" ++ intRepr i : String).data.head? = some 'f' := by
  rw [String.data_append]
  have : ("field_" : String).data = ['f', 'i', 'e', 'l', 'd', '_'] := by decide
  rw [this]
  rfl

theorem name_ne_synth (s : String) (hne : s.data.head? ≠ some 'f') (i : Int) :
    s ≠ "field_" ++ intRepr i := by
  intro h
  apply hne
  rw [h]
  exact synthKey_head i

theorem resolveKeyF_m5 (i : Int) :
    resolveKeyF m5resolve i =
      if i = 1 then "sessionHandle"
      else if i = 2 then "statement"
      else if i = 3 then "confOverlay"
      else if i = 7 then "runAsync"
      else if i = 8 then "queryTimeout"
      else "field_" ++ intRepr i := by
  by_cases h1 : i = 1
  · simp [resolveKeyF, m5resolve, m5map, lookupIntMap, h1]
  · by_cases h2 : i = 2
    · simp [resolveKeyF, m5resolve, m5map, lookupIntMap, h1, h2]
    · by_cases h3 : i = 3
      · simp [resolveKeyF, m5resolve, m5map, lookupIntMap, h1, h2, h3]
      · by_cases h7 : i = 7
        · simp [resolveKeyF, m5resolve, m5map, lookupIntMap, h1, h2, h3, h7]
        · by_cases h8 : i = 8
          · simp [resolveKeyF, m5resolve, m5map, lookupIntMap, h1, h2, h3, h7, h8]
          · simp [resolveKeyF, m5resolve, m5map, lookupIntMap, h1, h2, h3, h7, h8,
              Ne.symm h1, Ne.symm h2, Ne.symm h3, Ne.symm h7, Ne.symm h8]

theorem keyInj_m5 : KeyInj m5resolve := by
  intro i j h
  rw [resolveKeyF_m5, resolveKeyF_m5] at h
  split_ifs at h <;>
    first
    | omega
    | exact absurd h (by decide)
    | exact absurd h (name_ne_synth _ (by decide) _)
    | exact absurd h.symm (name_ne_synth _ (by decide) _)
    | exact synthKey_inj i j h

/-! ## Helper lemmas: Python dict insertion -/

theorem dnumEq_symm (x y : DNum) : dnumEq x y = dnumEq y x := by
  cases x <;> cases y <;> simp [dnumEq] <;> exact eq_comm

theorem pyKeyEq_symm (a b : PyVal) : pyKeyEq a b = pyKeyEq b a := by
  cases ha : pyNumOf a <;> cases hb : pyNumOf b <;> simp [pyKeyEq, ha, hb]
  · cases a <;> cases b <;> simp_all [pyNumOf] <;> exact eq_comm
  · exact dnumEq_symm _ _

theorem pyKeyEq_str (a b : String) : pyKeyEq (.pstr a) (.pstr b) = decide (a = b) := rfl

theorem mem_pyDictInsert :
    ∀ (d : List (PyVal × PyVal)) (k v : PyVal) (p : PyVal × PyVal),
      p ∈ pyDictInsert d k v → p.1 = k ∨ ∃ q ∈ d, p.1 = q.1 := by
  intro d k v
  induction d with
  | nil => intro p hp; simp [pyDictInsert] at hp; left; rw [hp]
  | cons q0 rest ih =>
    intro p hp
    obtain ⟨k0, v0⟩ := q0
    rw [pyDictInsert] at hp
    by_cases hk : pyKeyEq k0 k = true
    · rw [if_pos hk] at hp
      rcases List.mem_cons.mp hp with h | h
      · right; exact ⟨(k0, v0), by simp, by rw [h]⟩
      · right; exact ⟨p, by simp [h], rfl⟩
    · rw [if_neg hk] at hp
      rcases List.mem_cons.mp hp with h | h
      · right; exact ⟨(k0, v0), by simp, by rw [h]⟩
      · rcases ih p h with h2 | ⟨q, hq, hpq⟩
        · left; exact h2
        · right; exact ⟨q, by simp [hq], hpq⟩

theorem goodMapDict_insert {d : List (PyVal × PyVal)} {k v : PyVal}
    (hd : GoodMapDict d) (hk : isHashable k = true) : GoodMapDict (pyDictInsert d k v) := by
  induction d with
  | nil =>
    constructor
    · simp [pyDictInsert]
    · intro p hp; simp [pyDictInsert] at hp; rw [hp]; exact hk
  | cons q0 rest ih =>
    obtain ⟨k0, v0⟩ := q0
    obtain ⟨hpw, hhash⟩ := hd
    rw [List.pairwise_cons] at hpw
    obtain ⟨h0, hrest⟩ := hpw
    have hgrest : GoodMapDict rest := ⟨hrest, fun p hp => hhash p (by simp [hp])⟩
    rw [GoodMapDict, pyDictInsert]
    by_cases hkk : pyKeyEq k0 k = true
    · rw [if_pos hkk]
      constructor
      · rw [List.pairwise_cons]
        exact ⟨fun q hq => h0 q hq, hrest⟩
      · intro p hp
        rcases List.mem_cons.mp hp with h | h
        · rw [h]; exact hhash (k0, v0) (by simp)
        · exact hhash p (by simp [h])
    · rw [if_neg hkk]
      constructor
      · rw [List.pairwise_cons]
        constructor
        · intro q hq
          rcases mem_pyDictInsert rest k v q hq with h | ⟨q2, hq2, hqq⟩
          · rw [h]; simpa using hkk
          · rw [hqq]; exact h0 q2 hq2
        · exact (ih hgrest).1
      · intro p hp
        rcases List.mem_cons.mp hp with h | h
        · rw [h]; exact hhash (k0, v0) (by simp)
        · exact (ih hgrest).2 p h

theorem goodMapDict_nil : GoodMapDict [] := by
  constructor
  · simp
  · intro p hp; simp at hp

theorem mapPairs_good :
    ∀ (g : Nat) (r : Int → Option String) (kt vt md : Int) (n : Nat)
      (acc : List (PyVal × PyVal)) (st : DecState) (v : PyVal) (s : DecState),
      GoodMapDict acc → run g (.mapPairs r kt vt md n acc) st = .ok (v, s) →
      ∃ d, v = .pdict d ∧ GoodMapDict d := by
  intro g
  induction g with
  | zero => intro r kt vt md n acc st v s _ h; simp [run] at h
  | succ g ih =>
    intro r kt vt md n acc st v s hacc h
    cases n with
    | zero =>
      simp only [run, Except.ok.injEq, Prod.mk.injEq] at h
      exact ⟨acc, h.1.symm, hacc⟩
    | succ n =>
      simp only [run] at h
      split at h
      · simp at h
      next k st1 heq =>
        split at h
        · simp at h
        next vv st2 heq2 =>
          split at h
          next hh =>
            exact ih r kt vt md n (pyDictInsert acc k vv) st2 v s
              (goodMapDict_insert hacc hh) h
          next hh => simp at h

/-! ## Helper lemmas: the struct loop as a fold over the wire sequence -/

theorem structLoop_eq_seq :
    ∀ (g : Nat) (resolve : Int → Option String) (md : Int)
      (acc : List (PyVal × PyVal)) (st : DecState),
      run g (.structLoop resolve md acc) st =
        match structFieldSeq g resolve md st with
        | .ok (ps, s) => .ok (.pdict (ps.foldl (fun d p => pyDictInsert d p.1 p.2) acc), s)
        | .error e => .error e := by
  intro g
  induction g with
  | zero => intro resolve md acc st; simp [run, structFieldSeq]
  | succ g ih =>
    intro resolve md acc st
    simp only [run, structFieldSeq]
    cases hb : readByte st with
    | error p => obtain ⟨e, s⟩ := p; simp
    | ok p =>
      obtain ⟨ft, st1⟩ := p
      simp only
      by_cases hft : ft = 0
      · simp [hft]
      · simp only [if_neg hft]
        cases hi : readI16 st1 with
        | error p2 => obtain ⟨e, s⟩ := p2; simp
        | ok p2 =>
          obtain ⟨fid, st2⟩ := p2
          simp only
          cases hv : run g (.fieldValue resolve ft md) st2 with
          | ok p3 =>
            obtain ⟨v, st3⟩ := p3
            simp only [ih]
            cases hs : structFieldSeq g resolve md st3 with
            | ok p4 => obtain ⟨ps, s⟩ := p4; simp
            | error e => simp
          | error e =>
            cases e with
            | gasOut => simp
            | py e stE =>
              simp only
              cases hk : run g (.skip ft md) stE with
              | ok p4 =>
                obtain ⟨u, st4⟩ := p4
                simp only [ih]
                cases hs : structFieldSeq g resolve md st4 with
                | ok p5 => obtain ⟨ps, s⟩ := p5; simp
                | error e2 => simp
              | error e2 =>
                cases e2 with
                | gasOut => simp
                | py e2 s2 => simp [pyDictInsert]

theorem containsKeyB_eq_any (d : List (PyVal × PyVal)) (k : PyVal) :
    containsKeyB d k = (keysOf d).any (fun k0 => pyKeyEq k0 k) := by
  induction d with
  | nil => rfl
  | cons p rest ih =>
    simp only [containsKeyB, keysOf, List.any_cons, List.map_cons] at ih ⊢
    rw [ih]

theorem keysOf_pyDictInsert (d : List (PyVal × PyVal)) (k v : PyVal) :
    keysOf (pyDictInsert d k v) =
      if containsKeyB d k then keysOf d else keysOf d ++ [k] := by
  induction d with
  | nil => simp [pyDictInsert, containsKeyB, keysOf]
  | cons q rest ih =>
    obtain ⟨k0, v0⟩ := q
    rw [pyDictInsert]
    by_cases hk : pyKeyEq k0 k = true
    · rw [if_pos hk]
      have hcont : containsKeyB ((k0, v0) :: rest) k = true := by
        simp [containsKeyB, hk]
      rw [hcont]
      simp [keysOf]
    · have hkf : pyKeyEq k0 k = false := by simpa using hk
      rw [if_neg hk]
      have hcont : containsKeyB ((k0, v0) :: rest) k = containsKeyB rest k := by
        simp [containsKeyB, hkf]
      rw [hcont]
      show k0 :: keysOf (pyDictInsert rest k v) = _
      rw [ih]
      by_cases hc : containsKeyB rest k = true
      · rw [hc]
        simp [keysOf]
      · have hcf : containsKeyB rest k = false := by simpa using hc
        rw [hcf]
        simp [keysOf]

theorem keysOf_foldl_insert :
    ∀ (ps : List (PyVal × PyVal)) (acc : List (PyVal × PyVal)),
      keysOf (ps.foldl (fun d p => pyDictInsert d p.1 p.2) acc) =
        addKeys (keysOf acc) (keysOf ps) := by
  intro ps
  induction ps with
  | nil => intro acc; rfl
  | cons p ps ih =>
    intro acc
    rw [List.foldl_cons]
    rw [ih]
    show addKeys (keysOf (pyDictInsert acc p.1 p.2)) (keysOf ps) =
      addKeys (keysOf acc) (p.1 :: keysOf ps)
    rw [keysOf_pyDictInsert, containsKeyB_eq_any]
    rw [addKeys]

/-! ## Helper lemmas: the element loop appends in decode order -/

theorem seqElems_eq_trace :
    ∀ (g : Nat) (r : Int → Option String) (et md : Int) (n : Nat)
      (acc : List PyVal) (st : DecState),
      run g (.seqElems r et md n acc) st =
        match seqElemsTrace g r et md n st with
        | .ok (es, s) => .ok (.plist (acc ++ es), s)
        | .error e => .error e := by
  intro g
  induction g with
  | zero => intro r et md n acc st; simp [run, seqElemsTrace]
  | succ g ih =>
    intro r et md n acc st
    simp only [run, seqElemsTrace]
    cases n with
    | zero => simp
    | succ n =>
      simp only
      cases hv : run g (.fieldValue r et md) st with
      | error e => simp
      | ok p =>
        obtain ⟨v, st1⟩ := p
        simp only [ih]
        cases hs : seqElemsTrace g r et md n st1 with
        | ok p2 => obtain ⟨es, s⟩ := p2; simp
        | error e => simp

/-! ## Helper lemmas: struct decoding always yields a dict -/

theorem structLoop_pdict {g : Nat} {r : Int → Option String} {md : Int}
    {acc : List (PyVal × PyVal)} {st : DecState} {v : PyVal} {s : DecState}
    (h : run g (.structLoop r md acc) st = .ok (v, s)) : ∃ d, v = .pdict d := by
  rw [structLoop_eq_seq] at h
  cases hs : structFieldSeq g r md st with
  | ok p => obtain ⟨ps, s2⟩ := p; rw [hs] at h; simp at h; exact ⟨_, h.1.symm⟩
  | error e => rw [hs] at h; simp at h

theorem structVal_pdict {g : Nat} {r : Int → Option String} {md : Int}
    {st : DecState} {v : PyVal} {s : DecState}
    (h : run g (.structVal r md) st = .ok (v, s)) : ∃ d, v = .pdict d := by
  cases g with
  | zero => simp [run] at h
  | succ g =>
    simp only [run] at h
    by_cases hmd : md ≤ 0
    · rw [if_pos hmd] at h
      simp at h
      exact ⟨_, h.1.symm⟩
    · rw [if_neg hmd] at h
      exact structLoop_pdict h

/-! ## Helper lemmas: the sort used by the formatter -/

theorem charListLt_asymm :
    ∀ a b : List Char, charListLt a b = true → charListLt b a = false := by
  intro a
  induction a with
  | nil => intro b h; cases b <;> simp_all [charListLt]
  | cons c cs ih =>
    intro b h
    cases b with
    | nil => simp_all [charListLt]
    | cons d ds =>
      rw [charListLt] at h ⊢
      by_cases h1 : c.toNat < d.toNat
      · have h2 : ¬ d.toNat < c.toNat := by omega
        simp [h1, h2]
      · by_cases h2 : d.toNat < c.toNat
        · simp [h1, h2] at h
        · simp only [if_neg h1, if_neg h2] at h ⊢
          exact ih ds h

theorem charListLt_false_le :
    ∀ a b : List Char, charListLt a b = false ↔ charListLe b a = true := by
  intro a
  induction a with
  | nil => intro b; cases b <;> simp [charListLt, charListLe]
  | cons c cs ih =>
    intro b
    cases b with
    | nil => simp [charListLt, charListLe]
    | cons d ds =>
      rw [charListLt, charListLe]
      by_cases h1 : c.toNat < d.toNat
      · have h2 : ¬ d.toNat < c.toNat := by omega
        simp [h1, h2]
      · by_cases h2 : d.toNat < c.toNat
        · simp [h1, h2]
        · simp only [if_neg h1, if_neg h2]
          exact ih ds

theorem charListLe_trans :
    ∀ a b c : List Char, charListLe a b = true → charListLe b c = true →
      charListLe a c = true := by
  intro a
  induction a with
  | nil => intro b c _ _; simp [charListLe]
  | cons x xs ih =>
    intro b c hab hbc
    cases b with
    | nil => simp [charListLe] at hab
    | cons y ys =>
      cases c with
      | nil => simp [charListLe] at hbc
      | cons z zs =>
        rw [charListLe] at hab hbc ⊢
        by_cases h1 : x.toNat < y.toNat
        · by_cases h2 : y.toNat < z.toNat
          · have h3 : x.toNat < z.toNat := by omega
            simp [h3]
          · by_cases h2b : z.toNat < y.toNat
            · simp [h2, h2b] at hbc
            · have h3 : x.toNat < z.toNat := by omega
              simp [h3]
        · by_cases h1b : y.toNat < x.toNat
          · simp [h1, h1b] at hab
          · rw [if_neg h1, if_neg h1b] at hab
            by_cases h2 : y.toNat < z.toNat
            · have h3 : x.toNat < z.toNat := by omega
              simp [h3]
            · by_cases h2b : z.toNat < y.toNat
              · simp [h2, h2b] at hbc
              · rw [if_neg h2, if_neg h2b] at hbc
                have h3 : ¬ x.toNat < z.toNat := by omega
                have h3b : ¬ z.toNat < x.toNat := by omega
                rw [if_neg h3, if_neg h3b]
                exact ih ys zs hab hbc

theorem mem_insertSortedEntry :
    ∀ (p : PyVal × PyVal) (l : List (PyVal × PyVal)) (x : PyVal × PyVal),
      x ∈ insertSortedEntry p l → x = p ∨ x ∈ l := by
  intro p l
  induction l with
  | nil => intro x hx; simp [insertSortedEntry] at hx; left; exact hx
  | cons q rest ih =>
    intro x hx
    rw [insertSortedEntry] at hx
    by_cases hq : pyStrLt (entryKeyStr q) (entryKeyStr p) = true
    · rw [if_pos hq] at hx
      rcases List.mem_cons.mp hx with h | h
      · right; simp [h]
      · rcases ih x h with h2 | h2
        · left; exact h2
        · right; simp [h2]
    · rw [if_neg hq] at hx
      rcases List.mem_cons.mp hx with h | h
      · left; exact h
      · right; exact h

theorem insertSortedEntry_perm (p : PyVal × PyVal) (l : List (PyVal × PyVal)) :
    List.Perm (insertSortedEntry p l) (p :: l) := by
  induction l with
  | nil => simp [insertSortedEntry]
  | cons q rest ih =>
    rw [insertSortedEntry]
    by_cases hq : pyStrLt (entryKeyStr q) (entryKeyStr p) = true
    · rw [if_pos hq]
      exact (List.Perm.cons q ih).trans (List.Perm.swap p q rest)
    · rw [if_neg hq]

theorem sortFieldEntries_perm (l : List (PyVal × PyVal)) :
    List.Perm (sortFieldEntries l) l := by
  induction l with
  | nil => simp [sortFieldEntries]
  | cons p rest ih =>
    show List.Perm (insertSortedEntry p (sortFieldEntries rest)) (p :: rest)
    exact (insertSortedEntry_perm p (sortFieldEntries rest)).trans (List.Perm.cons p ih)

theorem insertSortedEntry_sorted (p : PyVal × PyVal) (l : List (PyVal × PyVal))
    (hl : SortedByKey l) : SortedByKey (insertSortedEntry p l) := by
  induction l with
  | nil => simp [insertSortedEntry, SortedByKey]
  | cons q rest ih =>
    rw [SortedByKey, insertSortedEntry]
    obtain ⟨hq, hrest⟩ := List.pairwise_cons.mp hl
    by_cases hlt : pyStrLt (entryKeyStr q) (entryKeyStr p) = true
    · rw [if_pos hlt, List.pairwise_cons]
      constructor
      · intro x hx
        rcases mem_insertSortedEntry p rest x hx with h | h
        · rw [h]
          rw [pyStrLe]
          rw [← charListLt_false_le]
          exact charListLt_asymm _ _ hlt
        · exact hq x h
      · exact ih hrest
    · rw [if_neg hlt, List.pairwise_cons]
      have hle : pyStrLe (entryKeyStr p) (entryKeyStr q) = true := by
        rw [pyStrLe, ← charListLt_false_le]
        simpa using hlt
      constructor
      · intro x hx
        rcases List.mem_cons.mp hx with h | h
        · rw [h]; exact hle
        · have := hq x h
          rw [pyStrLe] at hle this ⊢
          exact charListLe_trans _ _ _ hle this
      · exact hl

theorem sortFieldEntries_sorted (l : List (PyVal × PyVal)) :
    SortedByKey (sortFieldEntries l) := by
  induction l with
  | nil => simp [sortFieldEntries, SortedByKey]
  | cons p rest ih =>
    exact insertSortedEntry_sorted p (sortFieldEntries rest) ih

/-! ## Helper lemmas: decoding with and without a schema registry -/

theorem rres_refl (m : Int → Option String) (x : Except DErr (PyVal × DecState)) :
    RRes m x x := by
  cases x with
  | error e => exact rfl
  | ok p => obtain ⟨v, s⟩ := p; exact ⟨RVal.base v, rfl⟩

theorem rval_hashable {m : Int → Option String} {v1 v2 : PyVal} (h : RVal m v1 v2) :
    isHashable v1 = isHashable v2 := by
  cases h <;> rfl

theorem rval_unhashName {m : Int → Option String} {v1 v2 : PyVal} (h : RVal m v1 v2) :
    unhashableName v1 = unhashableName v2 := by
  cases h <;> rfl

theorem rval_scalar_eq {m : Int → Option String} {v1 v2 : PyVal} (h : RVal m v1 v2)
    (hh : isHashable v1 = true) : v1 = v2 := by
  cases h <;> first | rfl | simp [isHashable] at hh

theorem rfields_rval {m : Int → Option String} {d1 d2 : List (PyVal × PyVal)}
    (h : RFields m d1 d2) : RVal m (.pdict d1) (.pdict d2) := by
  induction h with
  | nil => exact RVal.rstructNil
  | consVal hv _ ih => exact RVal.rstructConsVal hv ih
  | consErr _ ih => exact RVal.rstructConsErr ih

theorem rpairs_rval {m : Int → Option String} {d1 d2 : List (PyVal × PyVal)}
    (h : RPairs m d1 d2) : RVal m (.pdict d1) (.pdict d2) := by
  induction h with
  | nil => exact RVal.rmapNil
  | cons hv _ ih => exact RVal.rmapCons hv ih

theorem rlist_rval {m : Int → Option String} {a1 a2 : List PyVal}
    (h : RList m a1 a2) : RVal m (.plist a1) (.plist a2) := by
  induction h with
  | nil => exact RVal.rlistNil
  | cons hv _ ih => exact RVal.rlistCons hv ih

theorem rlist_append {m : Int → Option String} {a1 a2 : List PyVal} {x y : PyVal}
    (h : RList m a1 a2) (hxy : RVal m x y) : RList m (a1 ++ [x]) (a2 ++ [y]) := by
  induction h with
  | nil => exact RList.cons hxy RList.nil
  | cons hv _ ih => exact RList.cons hv ih

theorem rfields_insert_ok {m : Int → Option String} (hinj : KeyInj m)
    {d1 d2 : List (PyVal × PyVal)} (h : RFields m d1 d2) (tn : String) (fid : Int)
    {v1 v2 : PyVal} (hv : RVal m v1 v2) :
    RFields m (pyDictInsert d1 (.pstr (resolveKeyF noResolve fid)) (fieldEntryOk tn v1 fid))
      (pyDictInsert d2 (.pstr (resolveKeyF m fid)) (fieldEntryOk tn v2 fid)) := by
  induction h with
  | nil => exact RFields.consVal hv RFields.nil
  | @consVal tn0 fid0 w1 w2 t1 t2 hw ht ih =>
    rw [pyDictInsert, pyDictInsert]
    by_cases hf : fid0 = fid
    · subst hf
      rw [if_pos (by rw [pyKeyEq_str]; simp), if_pos (by rw [pyKeyEq_str]; simp)]
      exact RFields.consVal hv ht
    · have hc1 : pyKeyEq (.pstr (resolveKeyF noResolve fid0))
          (.pstr (resolveKeyF noResolve fid)) = false := by
        rw [pyKeyEq_str]
        simp only [decide_eq_false_iff_not]
        exact fun he => hf (keyInj_noResolve fid0 fid he)
      have hc2 : pyKeyEq (.pstr (resolveKeyF m fid0)) (.pstr (resolveKeyF m fid)) = false := by
        rw [pyKeyEq_str]
        simp only [decide_eq_false_iff_not]
        exact fun he => hf (hinj fid0 fid he)
      rw [if_neg (by simp [hc1]), if_neg (by simp [hc2])]
      exact RFields.consVal hw ih
  | @consErr tn0 msg0 fid0 t1 t2 ht ih =>
    rw [pyDictInsert, pyDictInsert]
    by_cases hf : fid0 = fid
    · subst hf
      rw [if_pos (by rw [pyKeyEq_str]; simp), if_pos (by rw [pyKeyEq_str]; simp)]
      exact RFields.consVal hv ht
    · have hc1 : pyKeyEq (.pstr (resolveKeyF noResolve fid0))
          (.pstr (resolveKeyF noResolve fid)) = false := by
        rw [pyKeyEq_str]
        simp only [decide_eq_false_iff_not]
        exact fun he => hf (keyInj_noResolve fid0 fid he)
      have hc2 : pyKeyEq (.pstr (resolveKeyF m fid0)) (.pstr (resolveKeyF m fid)) = false := by
        rw [pyKeyEq_str]
        simp only [decide_eq_false_iff_not]
        exact fun he => hf (hinj fid0 fid he)
      rw [if_neg (by simp [hc1]), if_neg (by simp [hc2])]
      exact RFields.consErr ih

theorem rfields_insert_err {m : Int → Option String} (hinj : KeyInj m)
    {d1 d2 : List (PyVal × PyVal)} (h : RFields m d1 d2) (tn msg : String) (fid : Int) :
    RFields m (pyDictInsert d1 (.pstr (resolveKeyF noResolve fid)) (fieldEntryErr tn msg fid))
      (pyDictInsert d2 (.pstr (resolveKeyF m fid)) (fieldEntryErr tn msg fid)) := by
  induction h with
  | nil => exact RFields.consErr RFields.nil
  | @consVal tn0 fid0 w1 w2 t1 t2 hw ht ih =>
    rw [pyDictInsert, pyDictInsert]
    by_cases hf : fid0 = fid
    · subst hf
      rw [if_pos (by rw [pyKeyEq_str]; simp), if_pos (by rw [pyKeyEq_str]; simp)]
      exact RFields.consErr ht
    · have hc1 : pyKeyEq (.pstr (resolveKeyF noResolve fid0))
          (.pstr (resolveKeyF noResolve fid)) = false := by
        rw [pyKeyEq_str]
        simp only [decide_eq_false_iff_not]
        exact fun he => hf (keyInj_noResolve fid0 fid he)
      have hc2 : pyKeyEq (.pstr (resolveKeyF m fid0)) (.pstr (resolveKeyF m fid)) = false := by
        rw [pyKeyEq_str]
        simp only [decide_eq_false_iff_not]
        exact fun he => hf (hinj fid0 fid he)
      rw [if_neg (by simp [hc1]), if_neg (by simp [hc2])]
      exact RFields.consVal hw ih
  | @consErr tn0 msg0 fid0 t1 t2 ht ih =>
    rw [pyDictInsert, pyDictInsert]
    by_cases hf : fid0 = fid
    · subst hf
      rw [if_pos (by rw [pyKeyEq_str]; simp), if_pos (by rw [pyKeyEq_str]; simp)]
      exact RFields.consErr ht
    · have hc1 : pyKeyEq (.pstr (resolveKeyF noResolve fid0))
          (.pstr (resolveKeyF noResolve fid)) = false := by
        rw [pyKeyEq_str]
        simp only [decide_eq_false_iff_not]
        exact fun he => hf (keyInj_noResolve fid0 fid he)
      have hc2 : pyKeyEq (.pstr (resolveKeyF m fid0)) (.pstr (resolveKeyF m fid)) = false := by
        rw [pyKeyEq_str]
        simp only [decide_eq_false_iff_not]
        exact fun he => hf (hinj fid0 fid he)
      rw [if_neg (by simp [hc1]), if_neg (by simp [hc2])]
      exact RFields.consErr ih

theorem rpairs_insert {m : Int → Option String} {d1 d2 : List (PyVal × PyVal)}
    (h : RPairs m d1 d2) (k : PyVal) {v1 v2 : PyVal} (hv : RVal m v1 v2) :
    RPairs m (pyDictInsert d1 k v1) (pyDictInsert d2 k v2) := by
  induction h with
  | nil => exact RPairs.cons hv RPairs.nil
  | @cons k0 w1 w2 t1 t2 hw ht ih =>
    rw [pyDictInsert, pyDictInsert]
    by_cases hc : pyKeyEq k0 k = true
    · rw [if_pos hc, if_pos hc]
      exact RPairs.cons hv ht
    · rw [if_neg hc, if_neg hc]
      exact RPairs.cons hw ih

/-- Lockstep lemma: over any gas budget, a decode with resolver m and a
decode with no resolver read the same bytes, take the same branches,
raise the same exceptions from the same states, and produce related
values: only struct field keys differ, each resolved from its own field
id.  Requires m to resolve distinct ids to distinct keys, since the dict
collapse of colliding keys must agree between the two runs. -/
theorem run_lockstep {m : Int → Option String} (hinj : KeyInj m) :
    ∀ (g : Nat) (t1 t2 : Task), RTask m t1 t2 → ∀ st : DecState,
      RRes m (run g t1 st) (run g t2 st) := by
  intro g
  induction g with
  | zero =>
    intro t1 t2 ht st
    exact rfl
  | succ g ih =>
    intro t1 t2 ht st
    cases ht with
    | fieldValue ft md =>
      simp only [run]
      by_cases hmd : md ≤ 0
      · rw [if_pos hmd, if_pos hmd]
        exact ⟨RVal.base _, rfl⟩
      · rw [if_neg hmd, if_neg hmd]
        by_cases h2 : ft = 2
        · rw [if_pos h2, if_pos h2]; exact rres_refl m _
        · rw [if_neg h2, if_neg h2]
          by_cases h3 : ft = 3
          · rw [if_pos h3, if_pos h3]; exact rres_refl m _
          · rw [if_neg h3, if_neg h3]
            by_cases h6 : ft = 6
            · rw [if_pos h6, if_pos h6]; exact rres_refl m _
            · rw [if_neg h6, if_neg h6]
              by_cases h8 : ft = 8
              · rw [if_pos h8, if_pos h8]; exact rres_refl m _
              · rw [if_neg h8, if_neg h8]
                by_cases h10 : ft = 10
                · rw [if_pos h10, if_pos h10]; exact rres_refl m _
                · rw [if_neg h10, if_neg h10]
                  by_cases h4 : ft = 4
                  · rw [if_pos h4, if_pos h4]; exact rres_refl m _
                  · rw [if_neg h4, if_neg h4]
                    by_cases h11 : ft = 11
                    · rw [if_pos h11, if_pos h11]; exact rres_refl m _
                    · rw [if_neg h11, if_neg h11]
                      by_cases h12 : ft = 12
                      · rw [if_pos h12, if_pos h12]
                        exact ih _ _ (RTask.structVal (md - 1)) st
                      · rw [if_neg h12, if_neg h12]
                        by_cases h13 : ft = 13
                        · rw [if_pos h13, if_pos h13]
                          exact ih _ _ (RTask.mapVal (md - 1)) st
                        · rw [if_neg h13, if_neg h13]
                          by_cases h14 : ft = 14
                          · rw [if_pos h14, if_pos h14]
                            exact ih _ _ (RTask.setVal (md - 1)) st
                          · rw [if_neg h14, if_neg h14]
                            by_cases h15 : ft = 15
                            · rw [if_pos h15, if_pos h15]
                              exact ih _ _ (RTask.listVal (md - 1)) st
                            · rw [if_neg h15, if_neg h15]
                              exact ⟨RVal.base _, rfl⟩
    | structVal md =>
      simp only [run]
      by_cases hmd : md ≤ 0
      · rw [if_pos hmd, if_pos hmd]
        exact ⟨RVal.base _, rfl⟩
      · rw [if_neg hmd, if_neg hmd]
        exact ih _ _ (RTask.structLoop RFields.nil) st
    | @structLoop md f1 f2 hf =>
      simp only [run]
      cases hb : readByte st with
      | error p =>
        obtain ⟨e, s⟩ := p
        exact ⟨rfields_rval hf, rfl⟩
      | ok p =>
        obtain ⟨ft, st1⟩ := p
        by_cases hft : ft = 0
        · simp only [if_pos hft]
          exact ⟨rfields_rval hf, rfl⟩
        · simp only [if_neg hft]
          cases hi : readI16 st1 with
          | error p2 =>
            obtain ⟨e, s⟩ := p2
            exact ⟨rfields_rval hf, rfl⟩
          | ok p2 =>
            obtain ⟨fid, st2⟩ := p2
            dsimp only
            have hrv := ih _ _ (RTask.fieldValue ft md) st2
            cases h1 : run g (.fieldValue noResolve ft md) st2 with
            | ok p3 =>
              obtain ⟨v1, st3⟩ := p3
              cases h2 : run g (.fieldValue m ft md) st2 with
              | ok p4 =>
                obtain ⟨v2, st3b⟩ := p4
                rw [h1, h2] at hrv
                obtain ⟨hv, hst⟩ := hrv
                subst hst
                exact ih _ _
                  (RTask.structLoop (rfields_insert_ok hinj hf (typeNameOf ft) fid hv)) st3
              | error e2 =>
                rw [h1, h2] at hrv
                exact False.elim hrv
            | error e1 =>
              cases h2 : run g (.fieldValue m ft md) st2 with
              | ok p4 =>
                rw [h1, h2] at hrv
                exact False.elim hrv
              | error e2 =>
                rw [h1, h2] at hrv
                have he : e1 = e2 := hrv
                subst he
                cases e1 with
                | gasOut => exact rfl
                | py e stE =>
                  dsimp only
                  cases hk : run g (.skip ft md) stE with
                  | ok p4 =>
                    obtain ⟨u, st4⟩ := p4
                    dsimp only
                    exact ih _ _
                      (RTask.structLoop (rfields_insert_err hinj hf (typeNameOf ft) e.msg fid))
                      st4
                  | error e2 =>
                    cases e2 with
                    | gasOut => exact rfl
                    | py e3 s2 =>
                      dsimp only
                      exact ⟨rfields_rval (rfields_insert_err hinj hf (typeNameOf ft) e.msg fid),
                        rfl⟩
    | mapVal md =>
      simp only [run]
      cases hb : readByte st with
      | error p => obtain ⟨e, s⟩ := p; exact rfl
      | ok p =>
        obtain ⟨kt, st1⟩ := p
        dsimp only
        cases hb2 : readByte st1 with
        | error p2 => obtain ⟨e, s⟩ := p2; exact rfl
        | ok p2 =>
          obtain ⟨vt, st2⟩ := p2
          dsimp only
          cases hi : readI32 st2 with
          | error p3 => obtain ⟨e, s⟩ := p3; exact rfl
          | ok p3 =>
            obtain ⟨sz, st3⟩ := p3
            dsimp only
            by_cases hsz : 10000 < sz
            · simp only [if_pos hsz]
              exact ⟨RVal.base _, rfl⟩
            · simp only [if_neg hsz]
              exact ih _ _ (RTask.mapPairs RPairs.nil) st3
    | @mapPairs kt vt md n a1 a2 hp =>
      simp only [run]
      cases n with
      | zero => exact ⟨rpairs_rval hp, rfl⟩
      | succ n =>
        dsimp only
        have hrk := ih _ _ (RTask.fieldValue kt md) st
        cases h1 : run g (.fieldValue noResolve kt md) st with
        | ok p1 =>
          obtain ⟨k1, st1⟩ := p1
          dsimp only
          cases h2 : run g (.fieldValue m kt md) st with
          | ok p2 =>
            obtain ⟨k2, st1b⟩ := p2
            dsimp only
            rw [h1, h2] at hrk
            obtain ⟨hkv, hst⟩ := hrk
            subst hst
            have hrv := ih _ _ (RTask.fieldValue vt md) st1
            cases h3 : run g (.fieldValue noResolve vt md) st1 with
            | ok p3 =>
              obtain ⟨v1, st2⟩ := p3
              dsimp only
              cases h4 : run g (.fieldValue m vt md) st1 with
              | ok p4 =>
                obtain ⟨v2, st2b⟩ := p4
                dsimp only
                rw [h3, h4] at hrv
                obtain ⟨hvv, hst2⟩ := hrv
                subst hst2
                have hhash := rval_hashable hkv
                by_cases hh : isHashable k1 = true
                · have hh2 : isHashable k2 = true := by rw [← hhash]; exact hh
                  simp only [if_pos hh, if_pos hh2]
                  have hk12 : k1 = k2 := rval_scalar_eq hkv hh
                  subst hk12
                  exact ih _ _ (RTask.mapPairs (rpairs_insert hp k1 hvv)) st2
                · have hh2 : ¬ isHashable k2 = true := by rw [← hhash]; exact hh
                  simp only [if_neg hh, if_neg hh2]
                  have hun := rval_unhashName hkv
                  rw [hun]
                  exact rfl
              | error e4 =>
                rw [h3, h4] at hrv
                exact False.elim hrv
            | error e3 =>
              dsimp only
              cases h4 : run g (.fieldValue m vt md) st1 with
              | ok p4 =>
                rw [h3, h4] at hrv
                exact False.elim hrv
              | error e4 =>
                rw [h3, h4] at hrv
                have he : e3 = e4 := hrv
                subst he
                exact rfl
          | error e2 =>
            rw [h1, h2] at hrk
            exact False.elim hrk
        | error e1 =>
          dsimp only
          cases h2 : run g (.fieldValue m kt md) st with
          | ok p2 =>
            rw [h1, h2] at hrk
            exact False.elim hrk
          | error e2 =>
            rw [h1, h2] at hrk
            have he : e1 = e2 := hrk
            subst he
            exact rfl
    | setVal md =>
      simp only [run]
      cases hb : readByte st with
      | error p => obtain ⟨e, s⟩ := p; exact rfl
      | ok p =>
        obtain ⟨et, st1⟩ := p
        dsimp only
        cases hi : readI32 st1 with
        | error p2 => obtain ⟨e, s⟩ := p2; exact rfl
        | ok p2 =>
          obtain ⟨sz, st2⟩ := p2
          dsimp only
          by_cases hsz : 10000 < sz
          · simp only [if_pos hsz]
            exact ⟨RVal.base _, rfl⟩
          · simp only [if_neg hsz]
            exact ih _ _ (RTask.seqElems RList.nil) st2
    | listVal md =>
      simp only [run]
      cases hb : readByte st with
      | error p => obtain ⟨e, s⟩ := p; exact rfl
      | ok p =>
        obtain ⟨et, st1⟩ := p
        dsimp only
        cases hi : readI32 st1 with
        | error p2 => obtain ⟨e, s⟩ := p2; exact rfl
        | ok p2 =>
          obtain ⟨sz, st2⟩ := p2
          dsimp only
          by_cases hsz : 10000 < sz
          · simp only [if_pos hsz]
            exact ⟨RVal.base _, rfl⟩
          · simp only [if_neg hsz]
            exact ih _ _ (RTask.seqElems RList.nil) st2
    | @seqElems et md n a1 a2 hl =>
      simp only [run]
      cases n with
      | zero => exact ⟨rlist_rval hl, rfl⟩
      | succ n =>
        dsimp only
        have hrv := ih _ _ (RTask.fieldValue et md) st
        cases h1 : run g (.fieldValue noResolve et md) st with
        | ok p1 =>
          obtain ⟨v1, st1⟩ := p1
          dsimp only
          cases h2 : run g (.fieldValue m et md) st with
          | ok p2 =>
            obtain ⟨v2, st1b⟩ := p2
            dsimp only
            rw [h1, h2] at hrv
            obtain ⟨hv, hst⟩ := hrv
            subst hst
            exact ih _ _ (RTask.seqElems (rlist_append hl hv)) st1
          | error e2 =>
            rw [h1, h2] at hrv
            exact False.elim hrv
        | error e1 =>
          dsimp only
          cases h2 : run g (.fieldValue m et md) st with
          | ok p2 =>
            rw [h1, h2] at hrv
            exact False.elim hrv
          | error e2 =>
            rw [h1, h2] at hrv
            have he : e1 = e2 := hrv
            subst he
            exact rfl

/-! ## Claim theorems -/

/-- Claim C1 (amended): a decoded MAP value is a native insertion-ordered
dict, not a duplicate-preserving pair sequence: whenever _read_map
succeeds, the resulting dict has pairwise distinct keys under Python ==
(duplicate wire keys have been collapsed, the last value surviving at the
first-encounter position) and every key is hashable, so struct, map and
list keys never appear (they raise a TypeError instead of being kept). -/
theorem claim_C1 (g : Nat) (r : Int → Option String) (md : Int) (st : DecState)
    (v : PyVal) (s : DecState) (h : readMapVal (g + 1) r md st = .ok (v, s)) :
    ∃ d, v = .pdict d ∧ GoodMapDict d := by
  rw [readMapVal] at h
  simp only [run] at h
  split at h
  · simp at h
  next kt st1 heq =>
    split at h
    · simp at h
    next vt st2 heq2 =>
      split at h
      · simp at h
      next sz st3 heq3 =>
        split at h
        next hsz =>
          simp only [Except.ok.injEq, Prod.mk.injEq] at h
          refine ⟨[(.pstr "<large_map>", .pstr (intRepr sz ++ " entries"))], h.1.symm, ?_, ?_⟩
          · simp
          · intro p hp
            simp at hp
            rw [hp]
            rfl
        next hsz =>
          exact mapPairs_good g r kt vt md sz.toNat [] st3 v s goodMapDict_nil h

/-- Witness for claim C1 at a concrete duplicate-key map buffer. -/
theorem claim_C1_witness :
    ∃ d, (PyVal.pdict [(.pint 1, .pint 20)]) = .pdict d ∧ GoodMapDict d :=
  claim_C1 19 noResolve 31 ⟨bufMapDupKey, 0, 0⟩ (.pdict [(.pint 1, .pint 20)])
    ⟨bufMapDupKey, 22, 22⟩ (by rfl)

/-- Counterexample for claim C1 as stated: a map with two wire pairs
under the duplicate key 1 decodes to a single entry (the last value at
the first position), not two distinct pairs; and a map whose key is a
struct does not preserve the non-scalar key but raises a TypeError. -/
theorem claim_C1_counterexample :
    readMapVal 20 noResolve 31 ⟨bufMapDupKey, 0, 0⟩ =
        .ok (.pdict [(.pint 1, .pint 20)], ⟨bufMapDupKey, 22, 22⟩) ∧
      [((PyVal.pint 1), PyVal.pint 20)].length ≠ 2 ∧
      readMapVal 20 noResolve 31 ⟨bufMapStructKey, 0, 0⟩ =
        .error (.py ⟨"TypeError", "unhashable type: dict"⟩ ⟨bufMapStructKey, 12, 12⟩) :=
  ⟨rfl, by decide, rfl⟩

/-- Claim C2 (amended): when the remaining depth is exhausted,
read_struct returns the error placeholder dict immediately and leaves the
cursor exactly where it was — the nested bytes are not consumed, so
sibling fields that follow an over-deep sub-struct are decoded from
desynchronized positions and are not, in general, unaffected. -/
theorem claim_C2 (g : Nat) (r : Int → Option String) (md : Int) (st : DecState)
    (hmd : md ≤ 0) :
    readStruct (g + 1) r md st =
      .ok (.pdict [(.pstr "error", .pstr "max_depth_exceeded")], st) := by
  rw [readStruct]
  simp only [run]
  rw [if_pos hmd]

/-- Witness for claim C2 at depth 0 on a concrete state. -/
theorem claim_C2_witness :
    readStruct 5 noResolve 0 ⟨[2, 0, 1, 1, 0], 0, 0⟩ =
      .ok (.pdict [(.pstr "error", .pstr "max_depth_exceeded")], ⟨[2, 0, 1, 1, 0], 0, 0⟩) :=
  claim_C2 4 noResolve 0 ⟨[2, 0, 1, 1, 0], 0, 0⟩ (by decide)

set_option maxRecDepth 100000 in
/-- Counterexample for claim C2 as stated: with the default ceiling 32, a
buffer whose first field is a 40-deep sub-struct followed by the sibling
BOOL field id 99 loses that sibling entirely (the claim says it decodes
to the same value as without the over-deep sub-struct, where it is
present). -/
theorem claim_C2_counterexample :
    lookupStr (okFields (readStruct 500 noResolve 32 ⟨bufDeepSib, 0, 0⟩)) "field_99" = none ∧
    lookupStr (okFields (readStruct 500 noResolve 32 ⟨bufSibOnly, 0, 0⟩)) "field_99" =
      some (fieldEntryOk "BOOL" (.pbool true) 99) :=
  ⟨rfl, rfl⟩

/-- Claim C3 (amended): the output field mapping of a struct decode does
enumerate its entries in wire first-encounter order (the dict is the fold
of the wire-ordered field sequence, and its key list is the
first-occurrence subsequence of the wire key sequence); but the fields
are not reported in that order everywhere: format_thrift_message reports
them sorted by field key (a permutation in ascending key order), which
coincides with wire order only when the keys happen to be sorted. -/
theorem claim_C3 :
    (∀ (g : Nat) (r : Int → Option String) (md : Int) (st : DecState)
      (ps : List (PyVal × PyVal)) (s1 : DecState),
      structFieldSeq g r md st = .ok (ps, s1) →
      ∃ d, run g (.structLoop r md []) st = .ok (.pdict d, s1) ∧
        keysOf d = addKeys [] (keysOf ps)) ∧
    (∀ fields : List (PyVal × PyVal),
      List.Perm (sortFieldEntries fields) fields ∧ SortedByKey (sortFieldEntries fields)) := by
  constructor
  · intro g r md st ps s1 hps
    have he := structLoop_eq_seq g r md [] st
    rw [hps] at he
    exact ⟨ps.foldl (fun d p => pyDictInsert d p.1 p.2) [], he, keysOf_foldl_insert ps []⟩
  · intro fields
    exact ⟨sortFieldEntries_perm fields, sortFieldEntries_sorted fields⟩

/-- Witness for claim C3 at a concrete two-field struct. -/
theorem claim_C3_witness :
    ∃ d, run 49 (.structLoop noResolve 32 []) ⟨bufTwoFields, 0, 0⟩ =
        .ok (.pdict d, ⟨bufTwoFields, 9, 9⟩) ∧
      keysOf d = addKeys []
        (keysOf [(.pstr "field_2", fieldEntryOk "BOOL" (.pbool true) 2),
          (.pstr "field_1", fieldEntryOk "BOOL" (.pbool false) 1)]) :=
  claim_C3.1 49 noResolve 32 ⟨bufTwoFields, 0, 0⟩
    [(.pstr "field_2", fieldEntryOk "BOOL" (.pbool true) 2),
     (.pstr "field_1", fieldEntryOk "BOOL" (.pbool false) 1)]
    ⟨bufTwoFields, 9, 9⟩ (by rfl)

/-- Counterexample for claim C3 as stated: with wire order field 2 then
field 1, the mapping enumerates field_2 before field_1, but the formatter
reports field_1 before field_2 — the wire order is not preserved wherever
the decoded fields are reported. -/
theorem claim_C3_counterexample :
    keyStrsOf (okFields (readStruct 50 noResolve 32 ⟨bufTwoFields, 0, 0⟩)) =
        ["field_2", "field_1"] ∧
      formatFieldsOrder (okFields (readStruct 50 noResolve 32 ⟨bufTwoFields, 0, 0⟩)) =
        ["field_1", "field_2"] ∧
      (["field_1", "field_2"] : List String) ≠ ["field_2", "field_1"] :=
  ⟨rfl, rfl, by decide⟩

/-- Claim C4: the message envelope is read as claimed.  A leading
negative 32-bit integer selects strict framing: the masked top 16 bits
must equal 0x80010000 or the decode fails with the unsupported-version
error; the low byte is the message kind and the method name follows as a
length-prefixed string.  A nonnegative leading integer selects legacy
framing: it is the method-name byte length, the name bytes follow
directly with no second length read, then one byte gives the kind.  Both
modes end with a 32-bit signed sequence id, and the output is the triple
(method name, message kind, sequence id). -/
theorem claim_C4 (st : DecState) (sz : Int) (st1 : DecState)
    (h : readI32 st = .ok (sz, st1)) :
    (sz < 0 → maskAnd sz 0xFFFF0000 ≠ 0x80010000 →
      readMessageBegin st =
        .error (⟨"ValueError",
          "Unsupported Thrift version: " ++ pyHex (maskAnd sz 0xFFFF0000)⟩, st1)) ∧
    (sz < 0 → maskAnd sz 0xFFFF0000 = 0x80010000 →
      readMessageBegin st =
        match readString st1 with
        | .error e => .error e
        | .ok (nm, st2) =>
          match readI32 st2 with
          | .error e => .error e
          | .ok (sq, st3) => .ok ((nm, (maskAnd sz 0x000000FF : Int), sq), st3)) ∧
    (0 ≤ sz →
      readMessageBegin st =
        (let (chunk, st2) := readRaw st1 sz.toNat
         if chunk.length < sz.toNat then
           .error (⟨"EOFError", "Unexpected end of stream while reading method name"⟩, st2)
         else
           let st3 : DecState := { st2 with pos := st2.pos + sz.toNat }
           match utf8Decode chunk with
           | none => .error (⟨"UnicodeDecodeError", "invalid utf-8 in method name"⟩, st3)
           | some nm =>
             match readByte st3 with
             | .error e => .error e
             | .ok (mt, st4) =>
               match readI32 st4 with
               | .error e => .error e
               | .ok (sq, st5) => .ok ((nm, mt, sq), st5))) := by
  refine ⟨?_, ?_, ?_⟩
  · intro hneg hver
    rw [readMessageBegin, h]
    dsimp only
    rw [if_pos hneg, if_pos hver]
  · intro hneg hver
    rw [readMessageBegin, h]
    dsimp only
    rw [if_pos hneg, if_neg (by rw [hver]; exact fun hc => hc rfl)]
  · intro hge
    rw [readMessageBegin, h]
    dsimp only
    rw [if_neg (not_lt.mpr hge)]

/-- Witness for claim C4 at a concrete strict-framing Call message. -/
theorem claim_C4_witness :
    readMessageBegin ⟨[128, 1, 0, 1, 0, 0, 0, 2, 97, 98, 0, 0, 0, 7], 0, 0⟩ =
      .ok (("ab", 1, 7), ⟨[128, 1, 0, 1, 0, 0, 0, 2, 97, 98, 0, 0, 0, 7], 14, 14⟩) := by
  have h := (claim_C4 ⟨[128, 1, 0, 1, 0, 0, 0, 2, 97, 98, 0, 0, 0, 7], 0, 0⟩
    (-2147418111) ⟨[128, 1, 0, 1, 0, 0, 0, 2, 97, 98, 0, 0, 0, 7], 4, 4⟩ (by rfl)).2.1
    (by decide) (by decide)
  exact h.trans (by rfl)

/-- Claim C5: when reading one field value fails with an exception, the
struct loop records the field under its key with the error text, the type
name and the field id, then attempts to skip the value from the failure
state; if the skip succeeds, the loop continues from the skip state, and
if the skip also fails, the struct decode stops and returns exactly the
fields collected so far (no exception escapes the loop). -/
theorem claim_C5 (g : Nat) (r : Int → Option String) (md : Int)
    (fields : List (PyVal × PyVal)) (st st1 st2 stE : DecState) (ft fid : Int) (e : PyErr)
    (hb : readByte st = .ok (ft, st1)) (hft : ¬ ft = 0)
    (hi : readI16 st1 = .ok (fid, st2))
    (hv : run g (.fieldValue r ft md) st2 = .error (.py e stE)) :
    run (g + 1) (.structLoop r md fields) st =
      match run g (.skip ft md) stE with
      | .ok (_, st4) =>
        run g (.structLoop r md
          (pyDictInsert fields (.pstr (resolveKeyF r fid))
            (fieldEntryErr (typeNameOf ft) e.msg fid))) st4
      | .error .gasOut => .error .gasOut
      | .error (.py _ s2) =>
        .ok (.pdict (pyDictInsert fields (.pstr (resolveKeyF r fid))
          (fieldEntryErr (typeNameOf ft) e.msg fid)), s2) := by
  simp only [run]
  rw [hb]
  dsimp only
  rw [if_neg hft, hi]
  dsimp only
  rw [hv]

/-- Witness for claim C5 at a concrete struct whose single STRING field
declares more bytes than remain: the value read fails, the recovery skip
re-reads a string and also fails, and the decode returns the one
error-recorded field. -/
theorem claim_C5_witness :
    run 21 (.structLoop noResolve 32 []) ⟨[11, 0, 1, 0, 0, 0, 5, 97], 0, 0⟩ =
      .ok (.pdict [(.pstr "field_1",
        fieldEntryErr "STRING" "Unexpected end of stream while reading string at position 7" 1)],
        ⟨[11, 0, 1, 0, 0, 0, 5, 97], 8, 7⟩) := by
  have h := claim_C5 20 noResolve 32 [] ⟨[11, 0, 1, 0, 0, 0, 5, 97], 0, 0⟩
    ⟨[11, 0, 1, 0, 0, 0, 5, 97], 1, 1⟩ ⟨[11, 0, 1, 0, 0, 0, 5, 97], 3, 3⟩
    ⟨[11, 0, 1, 0, 0, 0, 5, 97], 8, 7⟩ 11 1
    ⟨"EOFError", "Unexpected end of stream while reading string at position 7"⟩
    (by rfl) (by decide) (by rfl) (by rfl)
  exact h.trans (by rfl)

/-- Claim C6: read_string reads a 32-bit length prefix and fails with a
length error when it is negative or above 10 MiB; otherwise it consumes
exactly that many bytes (or fails with an EOFError when fewer remain),
returns the UTF-8 decoding when the bytes are valid, and on invalid UTF-8
returns (rather than failing) the hex-preview placeholder built from the
first 50 bytes, with the ellipsis marker appended exactly when the data
is longer than 50 bytes. -/
theorem claim_C6 (st : DecState) (len : Int) (st1 : DecState)
    (h : readI32 st = .ok (len, st1)) :
    (len < 0 →
      readString st = .error (⟨"ValueError", "Invalid string length: " ++ intRepr len⟩, st1)) ∧
    (10 * 1024 * 1024 < len →
      readString st =
        .error (⟨"ValueError", "String length too large: " ++ intRepr len⟩, st1)) ∧
    (0 ≤ len → len ≤ 10 * 1024 * 1024 →
      ∀ chunk st2, readRaw st1 len.toNat = (chunk, st2) →
        (chunk.length < len.toNat →
          readString st = .error (⟨"EOFError",
            "Unexpected end of stream while reading string at position " ++ natRepr st1.pos⟩,
            st2)) ∧
        (¬ chunk.length < len.toNat →
          (∀ s2, utf8Decode chunk = some s2 →
            readString st = .ok (s2, { st2 with pos := st2.pos + len.toNat })) ∧
          (utf8Decode chunk = none →
            readString st = .ok ("<binary:" ++
              (if 50 < chunk.length then bytesHex (chunk.take 50) ++ "..."
               else bytesHex (chunk.take 50)) ++ ">",
              { st2 with pos := st2.pos + len.toNat })))) := by
  refine ⟨?_, ?_, ?_⟩
  · intro hneg
    rw [readString, h]
    dsimp only
    rw [if_pos hneg]
  · intro hbig
    have hneg : ¬ len < 0 := by omega
    rw [readString, h]
    dsimp only
    rw [if_neg hneg, if_pos hbig]
  · intro hge hle chunk st2 hraw
    have hneg : ¬ len < 0 := by omega
    have hbig : ¬ 10 * 1024 * 1024 < len := by omega
    constructor
    · intro hshort
      rw [readString, h]
      dsimp only
      rw [if_neg hneg, if_neg hbig, hraw]
      dsimp only
      rw [if_pos hshort]
    · intro hfull
      constructor
      · intro s2 hs2
        rw [readString, h]
        dsimp only
        rw [if_neg hneg, if_neg hbig, hraw]
        dsimp only
        rw [if_neg hfull, hs2]
      · intro hnone
        rw [readString, h]
        dsimp only
        rw [if_neg hneg, if_neg hbig, hraw]
        dsimp only
        rw [if_neg hfull, hnone]

/-- Witness for claim C6 at a concrete 61-byte invalid-UTF-8 string: the
hex preview keeps 50 bytes and carries the ellipsis marker. -/
theorem claim_C6_witness :
    readString ⟨[0, 0, 0, 61] ++ List.replicate 61 255, 0, 0⟩ =
      .ok ("<binary:" ++
        (if 50 < (List.replicate 61 (255 : Nat)).length then
          bytesHex ((List.replicate 61 (255 : Nat)).take 50) ++ "..."
         else bytesHex ((List.replicate 61 (255 : Nat)).take 50)) ++ ">",
        ⟨[0, 0, 0, 61] ++ List.replicate 61 255, 65, 65⟩) := by
  have h := ((claim_C6 ⟨[0, 0, 0, 61] ++ List.replicate 61 255, 0, 0⟩ 61
    ⟨[0, 0, 0, 61] ++ List.replicate 61 255, 4, 4⟩ (by rfl)).2.2 (by decide) (by decide)
    (List.replicate 61 255) ⟨[0, 0, 0, 61] ++ List.replicate 61 255, 65, 4⟩ (by rfl)).2
    (by decide)
  exact (h.2 (by rfl)).trans (by rfl)

/-- Claim C7: a map, set or list whose declared 32-bit element count
exceeds 10000 is not materialized: no element bytes are read (the cursor
stays right after the header) and the decoded value is the single bounded
placeholder describing the declared size, returned without an exception
so sibling decoding continues; counts of at most 10000 are decoded by the
element loop, which appends the elements in decode order. -/
theorem claim_C7 :
    (∀ (g : Nat) (r : Int → Option String) (md : Int) (st : DecState)
      (kt : Int) (st1 : DecState) (vt : Int) (st2 : DecState) (sz : Int) (st3 : DecState),
      readByte st = .ok (kt, st1) → readByte st1 = .ok (vt, st2) →
      readI32 st2 = .ok (sz, st3) →
      (10000 < sz → readMapVal (g + 1) r md st =
        .ok (.pdict [(.pstr "<large_map>", .pstr (intRepr sz ++ " entries"))], st3)) ∧
      (¬ 10000 < sz → readMapVal (g + 1) r md st =
        run g (.mapPairs r kt vt md sz.toNat []) st3)) ∧
    (∀ (g : Nat) (r : Int → Option String) (md : Int) (st : DecState)
      (et : Int) (st1 : DecState) (sz : Int) (st2 : DecState),
      readByte st = .ok (et, st1) → readI32 st1 = .ok (sz, st2) →
      (10000 < sz → readSetVal (g + 1) r md st =
        .ok (.plist [.pstr ("<large_set: " ++ intRepr sz ++ " entries>")], st2)) ∧
      (10000 < sz → readListVal (g + 1) r md st =
        .ok (.plist [.pstr ("<large_list: " ++ intRepr sz ++ " entries>")], st2)) ∧
      (¬ 10000 < sz → readListVal (g + 1) r md st =
        run g (.seqElems r et md sz.toNat []) st2)) ∧
    (∀ (g : Nat) (r : Int → Option String) (et md : Int) (n : Nat)
      (acc : List PyVal) (st : DecState),
      run g (.seqElems r et md n acc) st =
        match seqElemsTrace g r et md n st with
        | .ok (es, s) => .ok (.plist (acc ++ es), s)
        | .error e => .error e) := by
  refine ⟨?_, ?_, seqElems_eq_trace⟩
  · intro g r md st kt st1 vt st2 sz st3 hb hb2 hi
    rw [readMapVal]
    simp only [run]
    rw [hb]
    dsimp only
    rw [hb2]
    dsimp only
    rw [hi]
    dsimp only
    constructor
    · intro hsz; rw [if_pos hsz]
    · intro hsz; rw [if_neg hsz]
  · intro g r md st et st1 sz st2 hb hi
    rw [readSetVal, readListVal]
    simp only [run]
    rw [hb]
    dsimp only
    rw [hi]
    dsimp only
    refine ⟨fun hsz => ?_, fun hsz => ?_, fun hsz => ?_⟩
    · rw [if_pos hsz]
    · rw [if_pos hsz]
    · rw [if_neg hsz]

/-- Witness for claim C7 at a concrete list declaring 50000 elements:
only the header is consumed and the placeholder is returned. -/
theorem claim_C7_witness :
    readListVal 10 noResolve 31 ⟨[11, 0, 0, 195, 80], 0, 0⟩ =
      .ok (.plist [.pstr ("<large_list: " ++ intRepr (50000 : Int) ++ " entries>")],
        ⟨[11, 0, 0, 195, 80], 5, 5⟩) :=
  (claim_C7.2.1 9 noResolve 31 ⟨[11, 0, 0, 195, 80], 0, 0⟩ 11 ⟨[11, 0, 0, 195, 80], 1, 1⟩
    50000 ⟨[11, 0, 0, 195, 80], 5, 5⟩ (by rfl) (by rfl)).2.1 (by decide)

/-- Claim C8: for every type tag and every decoder state, when the
remaining recursion depth is exhausted, read_field_value returns the
depth placeholder immediately, with no recursion and with the state (and
so the cursor position) unchanged: no nested bytes are consumed. -/
theorem claim_C8 (g : Nat) (r : Int → Option String) (ft md : Int) (st : DecState)
    (hmd : md ≤ 0) :
    readFieldValue (g + 1) r ft md st = .ok (.pstr "<max_depth_exceeded>", st) := by
  rw [readFieldValue]
  simp only [run]
  rw [if_pos hmd]

/-- Witness for claim C8 at depth 0 on a STRUCT tag and a nonempty
buffer: nothing is consumed. -/
theorem claim_C8_witness :
    readFieldValue 5 noResolve 12 0 ⟨[12, 0, 1, 0], 0, 0⟩ =
      .ok (.pstr "<max_depth_exceeded>", ⟨[12, 0, 1, 0], 0, 0⟩) :=
  claim_C8 4 noResolve 12 0 ⟨[12, 0, 1, 0], 0, 0⟩ (by decide)

/-- Claim C9 (amended): for any injective key resolution, decoding a
struct body with the resolver and decoding the same bytes with no
registry attached read the same bytes, raise identical exceptions, end in
identical states, and produce values related by RVal: identical except
that every struct field key, at every nesting level, is the resolver
applied to that field id instead of the synthetic field_id name.  In
particular type tags, field ids and scalar values never depend on the
registry — but struct-valued fields are themselves renamed, so such
values are not literally identical between the two runs. -/
theorem claim_C9 (m : Int → Option String) (hinj : KeyInj m) (g : Nat) (md : Int)
    (st : DecState) :
    RRes m (readStruct g noResolve md st) (readStruct g m md st) := by
  rw [readStruct, readStruct]
  exact run_lockstep hinj g _ _ (RTask.structVal md) st

/-- Witness for claim C9 with the five-name ExecuteStatement registry on
the concrete request body. -/
theorem claim_C9_witness :
    RRes m5resolve (readStruct 300 noResolve 32 ⟨execBody, 0, 0⟩)
      (readStruct 300 m5resolve 32 ⟨execBody, 0, 0⟩) :=
  claim_C9 m5resolve keyInj_m5 300 32 ⟨execBody, 0, 0⟩

/-- Counterexample for claim C9 as stated: decoding the concrete
ExecuteStatement Call message with the registry yields the five names in
wire order and without it the synthetic names, as claimed — but the
decoded value of the struct-valued field differs between the runs,
because the same id-to-name map is applied to the nested struct keys too
(sessionHandle holds an inner key statement with the registry but field_2
without), refuting that registry presence never affects decoded values. -/
theorem claim_C9_counterexample :
    keyStrsOf (msgFields (decodeMessage true exampleRegistry 300 execMsg)) =
        ["sessionHandle", "statement", "confOverlay", "runAsync", "queryTimeout"] ∧
      keyStrsOf (msgFields (decodeMessage false exampleRegistry 300 execMsg)) =
        ["field_1", "field_2", "field_3", "field_7", "field_8"] ∧
      entryValueKeys (msgFields (decodeMessage true exampleRegistry 300 execMsg))
        "sessionHandle" = ["statement"] ∧
      entryValueKeys (msgFields (decodeMessage false exampleRegistry 300 execMsg))
        "field_1" = ["field_2"] ∧
      (["statement"] : List String) ≠ ["field_2"] :=
  ⟨rfl, rfl, rfl, rfl, by decide⟩

/-- decode_message never lets an exception escape and always returns a
dictionary: either the error dictionary built from the caught exception,
or the result dictionary. -/
theorem decodeMessage_pdict (available : Bool) (registry : SchemaRegistry) (g : Nat)
    (data : List Nat) (w : PyVal)
    (h : decodeMessage available registry g data = .ok w) : ∃ d, w = .pdict d := by
  rw [decodeMessage] at h
  cases hmb : readMessageBegin ⟨data, 0, 0⟩ with
  | error p =>
    obtain ⟨e, stE⟩ := p
    rw [hmb] at h
    dsimp only at h
    simp only [Except.ok.injEq] at h
    exact ⟨_, h.symm⟩
  | ok p =>
    obtain ⟨⟨methodName, messageType, seqId⟩, st1⟩ := p
    rw [hmb] at h
    dsimp only at h
    cases hs : readStruct g
        (fun fid => lookupIntMap
          (buildFieldNameMap available registry methodName messageType) fid) 32 st1 with
    | error e =>
      cases e with
      | gasOut => rw [hs] at h; simp at h
      | py e stE =>
        rw [hs] at h
        dsimp only at h
        simp only [Except.ok.injEq] at h
        exact ⟨_, h.symm⟩
    | ok p2 =>
      obtain ⟨structFields, st2⟩ := p2
      rw [hs] at h
      dsimp only at h
      simp only [Except.ok.injEq] at h
      exact ⟨_, h.symm⟩

/-- Claim C10: decode_thrift_message returns None exactly when the buffer
is empty or shorter than 4 bytes; otherwise it returns a dictionary and
never raises (in the embedding, every Python exception is caught and only
the gas artifact propagates), and when the envelope read fails the
returned dictionary is the error dictionary carrying the error text under
the error key together with the bytes consumed so far. -/
theorem claim_C10 (available : Bool) (registry : SchemaRegistry) (g : Nat)
    (data : List Nat) :
    (data.length < 4 → decodeThriftMessage available registry g data = .ok none) ∧
    (∀ v, decodeThriftMessage available registry g data = .ok (some v) → ∃ d, v = .pdict d) ∧
    (decodeThriftMessage available registry g data = .ok none → data.length < 4) ∧
    (∀ e stE, 4 ≤ data.length → readMessageBegin ⟨data, 0, 0⟩ = .error (e, stE) →
      decodeThriftMessage available registry g data =
        .ok (some (errorDict e stE.pos data.length))) := by
  refine ⟨?_, ?_, ?_, ?_⟩
  · intro h
    rw [decodeThriftMessage, if_pos h]
  · intro v hv
    rw [decodeThriftMessage] at hv
    by_cases hlen : data.length < 4
    · rw [if_pos hlen] at hv
      simp at hv
    · rw [if_neg hlen] at hv
      cases hdm : decodeMessage available registry g data with
      | error e => rw [hdm] at hv; simp at hv
      | ok w =>
        rw [hdm] at hv
        simp only [Except.ok.injEq, Option.some.injEq] at hv
        subst hv
        exact decodeMessage_pdict available registry g data w hdm
  · intro h
    by_cases hlen : data.length < 4
    · exact hlen
    · exfalso
      rw [decodeThriftMessage, if_neg hlen] at h
      cases hdm : decodeMessage available registry g data with
      | error e => rw [hdm] at h; simp at h
      | ok w => rw [hdm] at h; simp at h
  · intro e stE hlen hmb
    rw [decodeThriftMessage, if_neg (not_lt.mpr hlen), decodeMessage, hmb]

/-- Witness for claim C10: a 2-byte buffer yields None, and a 4-byte
buffer with a bad version marker yields the error dictionary with 4 bytes
consumed. -/
theorem claim_C10_witness :
    decodeThriftMessage false exampleRegistry 10 [1, 2] = .ok none ∧
      decodeThriftMessage false exampleRegistry 10 [255, 255, 0, 0] =
        .ok (some (errorDict
          ⟨"ValueError", "Unsupported Thrift version: " ++ pyHex 0xFFFF0000⟩ 4 4)) := by
  constructor
  · exact (claim_C10 false exampleRegistry 10 [1, 2]).1 (by decide)
  · exact (claim_C10 false exampleRegistry 10 [255, 255, 0, 0]).2.2.2
      ⟨"ValueError", "Unsupported Thrift version: " ++ pyHex 0xFFFF0000⟩
      ⟨[255, 255, 0, 0], 4, 4⟩ (by decide) (by rfl)

end TDec
